import Mathlib

/-!
HackBrowserData, `core/common/common.go`.

A shallow embedding of the artifact parsers of `core/common/common.go`
(`ParseDB`, `parseBookmarks`, `parseLogin`, `parseCookie`, `parseHistory`,
`getBookmarkChildren`) and the properties of the specification settled on it.

The package state (`FullData` and the four accumulator lists) is passed
explicitly.  What the parsers obtain from `database/sql`, `gjson` and the
`utils` package is an input of the embedding.
-/

namespace HackBrowserData

/-! ## Values supplied by the environment -/

/-- A Go `error` value that is not nil, identified by its message. -/
abbrev Err := String

/-- A Go `[]byte`; the nil slice and the empty slice are both `[]`. -/
abbrev Bytes := List UInt8

/-- A `time.Time` value.  The parsers only store the values that
`utils.TimeEpochFormat` hands back, so a timestamp is identified by a tag. -/
structure Time where
  tag : Int
  deriving DecidableEq, Repr

/-- A `gjson.Result`, as a tree.  `missing` is the zero `Result` that `Get`
returns when the path matches nothing (`Exists()` is false).  A number carries
the text `String()` reports for it and the value `Int()` reports for it, a
string literal its content and the value `Int()` reports for it, and an array
or object its raw text (which is what `String()` reports for it). -/
inductive Result where
  | missing : Result
  | null : Result
  | bool (b : Bool) : Result
  | number (str : String) (int : Int) : Result
  | string (str : String) (int : Int) : Result
  | array (raw : String) (elems : List Result) : Result
  | object (raw : String) (members : List (String × Result)) : Result

namespace Result

/-- The first member of an object stored under `key`. -/
def lookup (key : String) : List (String × Result) → Result
  | [] => missing
  | (k, v) :: rest => if k = key then v else lookup key rest

/-- The method `Result.Get(path)` for a path that is a plain member name, which is the
only kind of path the parsers use: member lookup on an object, nothing on
any other value. -/
def Get (t : Result) (path : String) : Result :=
  match t with
  | object _ members => lookup path members
  | _ => missing

/-- The method `Result.Exists()`. -/
def Exists (t : Result) : Bool :=
  match t with
  | missing => false
  | _ => true

/-- The method `Result.IsArray()`. -/
def IsArray (t : Result) : Bool :=
  match t with
  | array _ _ => true
  | _ => false

/-- The method `Result.Array()`: the elements of an array, nothing for a null or missing
value, and the value itself as the only element otherwise. -/
def Array (t : Result) : List Result :=
  match t with
  | array _ elems => elems
  | missing => []
  | null => []
  | other => [other]

/-- The values `Result.ForEach` passes to an iterator that always returns
true, in order: the member values of an object, the elements of an array,
the value itself for any other existing value, nothing for a missing one. -/
def forEachValues (t : Result) : List Result :=
  match t with
  | missing => []
  | object _ members => members.map Prod.snd
  | array _ elems => elems
  | other => [other]

end Result

/-- The method `Result.String()`. -/
def Result.String (t : Result) : String :=
  match t with
  | .missing => ""
  | .null => ""
  | .bool true => "true"
  | .bool false => "false"
  | .number str _ => str
  | .string str _ => str
  | .array raw _ => raw
  | .object raw _ => raw

/-- The method `Result.Int()`. -/
def Result.Int (t : Result) : Int :=
  match t with
  | .bool true => 1
  | .number _ int => int
  | .string _ int => int
  | _ => 0

/-- The parts of the `utils` package the parsers use: the four selector
constants (which are also the paths of the four stores), the time normaliser
and the field decryptor.  The decryptor returns a string together with an
error that may be nil. -/
structure Utils where
  LoginData : String
  Bookmarks : String
  Cookies : String
  History : String
  TimeEpochFormat : Int → Time
  Aes128CBCDecrypt : Bytes → String × Option Err

/-- Modelled from the spec: `utils.IntToBool` is not among the sources; the
specification gives "Integer flag columns are converted to booleans (0 = false,
nonzero = true)". -/
def IntToBool (a : Int) : Bool :=
  if a = 0 then false else true

/-! ## Data model -/

def bookmarkID : String := "id"
def bookmarkAdded : String := "date_added"
def bookmarkUrl : String := "url"
def bookmarkName : String := "name"
def bookmarkType : String := "type"
def bookmarkChildren : String := "children"

structure LoginData where
  UserName : String
  encryptPass : Bytes
  Password : String
  LoginUrl : String
  CreateDate : Time
  deriving DecidableEq, Repr

structure Bookmarks where
  ID : String
  DateAdded : Time
  URL : String
  Name : String
  «Type» : String
  deriving DecidableEq, Repr

structure Cookies where
  KeyName : String
  encryptValue : Bytes
  Value : String
  Host : String
  Path : String
  IsSecure : Bool
  IsHTTPOnly : Bool
  HasExpire : Bool
  IsPersistent : Bool
  CreateDate : Time
  ExpireDate : Time
  deriving DecidableEq, Repr

structure History where
  Url : String
  Title : String
  VisitCount : Int
  LastVisitTime : Time
  deriving DecidableEq, Repr

structure BrowserData where
  BrowserName : String
  LoginData : List LoginData
  Bookmarks : List Bookmarks
  Cookies : List Cookies
  History : List History
  deriving DecidableEq, Repr

/-- What a run does to the outside, in order: a line handed to `log.Println`,
or a call of `utils.Aes128CBCDecrypt` with its argument. -/
inductive Event where
  | logged (e : Err) : Event
  | decrypt (ciphertext : Bytes) : Event
  deriving DecidableEq, Repr

/-- The package variables, and the events of the run so far. -/
structure State where
  FullData : BrowserData
  bookmarkList : List Bookmarks
  cookieList : List Cookies
  historyList : List History
  loginItemList : List LoginData
  events : List Event
  deriving DecidableEq, Repr

/-- The statement `if err != nil { log.Println(err) }`. -/
def logIfErr (err : Option Err) (s : State) : State :=
  match err with
  | some e => { s with events := s.events ++ [Event.logged e] }
  | none => s

/-! ## Bookmarks -/

theorem sizeOf_lookup_le (key : String) (members : List (String × Result)) :
    sizeOf (Result.lookup key members) ≤ 1 + sizeOf members := by
  induction members with
  | nil => simp [Result.lookup]
  | cons kv rest ih =>
    obtain ⟨k, v⟩ := kv
    simp only [Result.lookup]
    split
    · simp
      omega
    · simp
      omega

theorem sizeOf_elem_lt_of_children {value v : Result}
    (h : v ∈ (value.Get bookmarkChildren).Array)
    (harr : (value.Get bookmarkChildren).IsArray = true) :
    sizeOf v < sizeOf value := by
  cases value with
  | object raw members =>
    have h1 := sizeOf_lookup_le bookmarkChildren members
    simp only [Result.Get] at h harr
    generalize Result.lookup bookmarkChildren members = c at h harr h1
    cases c with
    | array r elems =>
      simp only [Result.Array] at h
      have h2 := List.sizeOf_lt_of_mem h
      simp at h1 ⊢
      omega
    | _ => simp [Result.IsArray] at harr
  | _ => simp [Result.Get, Result.IsArray] at harr

/-- The function `getBookmarkChildren`, with the package variable
`bookmarkList` passed in and out.  The loop over `children.Array()` is the
fold; each round assigns the call's result to `children`. -/
def getBookmarkChildren (value : Result) (bookmarkList : List Bookmarks) (u : Utils) :
    Result × List Bookmarks :=
  let nodeType := value.Get bookmarkType
  let b : Bookmarks :=
    { ID := (value.Get bookmarkID).String
      DateAdded := u.TimeEpochFormat (value.Get bookmarkAdded).Int
      URL := (value.Get bookmarkUrl).String
      Name := (value.Get bookmarkName).String
      «Type» := "" }
  let children := value.Get bookmarkChildren
  if nodeType.Exists then
    let b := { b with «Type» := nodeType.String }
    let bookmarkList := bookmarkList ++ [b]
    if h : children.Exists && children.IsArray then
      children.Array.attach.foldl
        (fun (st : Result × List Bookmarks) (v : { x // x ∈ children.Array }) =>
          have : sizeOf v.1 < sizeOf value :=
            sizeOf_elem_lt_of_children v.2 (by simp at h; exact h.2)
          getBookmarkChildren v.1 st.2 u)
        (children, bookmarkList)
    else
      (children, bookmarkList)
  else
    (children, bookmarkList)
termination_by sizeOf value

/-- The record `getBookmarkChildren` appends for a node that carries a type. -/
def bookmarkOf (value : Result) (u : Utils) : Bookmarks :=
  { ID := (value.Get bookmarkID).String
    DateAdded := u.TimeEpochFormat (value.Get bookmarkAdded).Int
    URL := (value.Get bookmarkUrl).String
    Name := (value.Get bookmarkName).String
    «Type» := (value.Get bookmarkType).String }

/-- The records one call of `getBookmarkChildren` adds to an empty list. -/
def emitted (u : Utils) (value : Result) : List Bookmarks :=
  (getBookmarkChildren value [] u).2

/-- The nodes of the subtree below a node, in pre-order: the node itself, then
the subtrees of the elements of its "children" array, in array order. -/
def subtreeNodes (value : Result) : List Result :=
  value ::
    (if h : (value.Get bookmarkChildren).IsArray then
      (value.Get bookmarkChildren).Array.attach.flatMap
        (fun (v : { x // x ∈ (value.Get bookmarkChildren).Array }) =>
          have : sizeOf v.1 < sizeOf value := sizeOf_elem_lt_of_children v.2 h
          subtreeNodes v.1)
    else [])
termination_by sizeOf value

/-- The nodes of a subtree that carry a type and are reached through nodes
that carry a type, in pre-order. -/
def typedNodes (value : Result) : List Result :=
  if (value.Get bookmarkType).Exists then
    value ::
      (if h : (value.Get bookmarkChildren).IsArray then
        (value.Get bookmarkChildren).Array.attach.flatMap
          (fun (v : { x // x ∈ (value.Get bookmarkChildren).Array }) =>
            have : sizeOf v.1 < sizeOf value := sizeOf_elem_lt_of_children v.2 h
            typedNodes v.1)
      else [])
  else []
termination_by sizeOf value

/-! ## The stores -/

/-- What `rows.Scan` leaves behind for one row of `queryLogin`: the values of
the destination variables afterwards (the zero value where Scan stored
nothing) and the error it returned. -/
structure LoginRow where
  url : String
  username : String
  pwd : Bytes
  create : Int
  scanErr : Option Err
  deriving DecidableEq, Repr

/-- What `rows.Scan` leaves behind for one row of `queryCookie`. -/
structure CookieRow where
  key : String
  encryptValue : Bytes
  host : String
  path : String
  createDate : Int
  expireDate : Int
  isSecure : Int
  isHTTPOnly : Int
  hasExpire : Int
  isPersistent : Int
  scanErr : Option Err
  deriving DecidableEq, Repr

/-- What `rows.Scan` leaves behind for one row of `queryUrl`. -/
structure HistoryRow where
  url : String
  title : String
  visitCount : Int
  lastVisitTime : Int
  scanErr : Option Err
  deriving DecidableEq, Repr

/-- An `*sql.Rows` that is not nil: the rows for which `Next` returns true,
in order, and the result of `Close`. -/
structure Rows (ρ : Type) where
  rows : List ρ
  closeErr : Option Err

/-- An `*sql.DB` that is not nil: the results of `Ping`, of `Query` with the
parser's fixed statement (an error comes with a nil `*sql.Rows`), and of
`Close`. -/
structure DB (ρ : Type) where
  pingErr : Option Err
  query : Except Err (Rows ρ)
  closeErr : Option Err

/-- What the run finds outside: the result of `sql.Open` for each of the three
stores (an error comes with a nil `*sql.DB`), the error of
`utils.ReadFile(utils.Bookmarks)`, and what `gjson.Parse` makes of the text
that call returned. -/
structure World where
  loginDB : Except Err (DB LoginRow)
  cookieDB : Except Err (DB CookieRow)
  historyDB : Except Err (DB HistoryRow)
  readFileErr : Option Err
  bookmarks : Result

/-- A run-time panic; nothing in the package recovers from one. -/
inductive Fault where
  | nilDereference : Fault
  deriving DecidableEq, Repr

/-! ## Scanning a stored row -/

/-- A column of a stored row, as `rows.Scan` meets it: the value that the
conversion of the stored value to the type of the destination variable gives,
or the error of that conversion (a NULL for a string or an integer variable, a
text that is no integer for an integer variable).  A NULL for a `[]byte`
variable converts to the nil slice. -/
abbrev Column (α : Type) := Except Err α

/-- The step of `rows.Scan` for one column and its destination variable:
after an error nothing more is stored; otherwise the column's value is stored
if it converts, and the conversion's error ends the scan with the variable as
it was. -/
def scanColumn {α : Type} (err : Option Err) (col : Column α) (dest : α) : α × Option Err :=
  match err, col with
  | some e, _ => (dest, some e)
  | none, .ok v => (v, none)
  | none, .error e => (dest, some e)

/-- A row of `queryLogin` as stored, column by column in the order of the
statement. -/
structure StoredLogin where
  origin_url : Column String
  username_value : Column String
  password_value : Column Bytes
  date_created : Column Int

/-- The call `rows.Scan(&url, &username, &pwd, &create)` on freshly declared
variables: the columns are converted in order, up to the first that fails. -/
def scanLogin (r : StoredLogin) : LoginRow :=
  let c0 := scanColumn none r.origin_url ""
  let c1 := scanColumn c0.2 r.username_value ""
  let c2 := scanColumn c1.2 r.password_value []
  let c3 := scanColumn c2.2 r.date_created 0
  { url := c0.1, username := c1.1, pwd := c2.1, create := c3.1, scanErr := c3.2 }

/-- A row of `queryCookie` as stored, column by column in the order of the
statement. -/
structure StoredCookie where
  name : Column String
  encrypted_value : Column Bytes
  host_key : Column String
  path : Column String
  creation_utc : Column Int
  expires_utc : Column Int
  is_secure : Column Int
  is_httponly : Column Int
  has_expires : Column Int
  is_persistent : Column Int

/-- The call `rows.Scan(&key, &encryptValue, &host, &path, &createDate,
&expireDate, &isSecure, &isHTTPOnly, &hasExpire, &isPersistent)` on freshly
declared variables. -/
def scanCookie (r : StoredCookie) : CookieRow :=
  let c0 := scanColumn none r.name ""
  let c1 := scanColumn c0.2 r.encrypted_value []
  let c2 := scanColumn c1.2 r.host_key ""
  let c3 := scanColumn c2.2 r.path ""
  let c4 := scanColumn c3.2 r.creation_utc 0
  let c5 := scanColumn c4.2 r.expires_utc 0
  let c6 := scanColumn c5.2 r.is_secure 0
  let c7 := scanColumn c6.2 r.is_httponly 0
  let c8 := scanColumn c7.2 r.has_expires 0
  let c9 := scanColumn c8.2 r.is_persistent 0
  { key := c0.1, encryptValue := c1.1, host := c2.1, path := c3.1, createDate := c4.1,
    expireDate := c5.1, isSecure := c6.1, isHTTPOnly := c7.1, hasExpire := c8.1,
    isPersistent := c9.1, scanErr := c9.2 }

/-- Whether a column converts. -/
def Column.converts {α : Type} (col : Column α) : Bool :=
  match col with
  | .ok _ => true
  | .error _ => false

/-- The value a column converts to, `zero` if it does not convert. -/
def Column.valueOr {α : Type} (col : Column α) (zero : α) : α :=
  match col with
  | .ok v => v
  | .error _ => zero

/-- Which columns of a stored login row convert, in the order of the
statement. -/
def StoredLogin.converts (r : StoredLogin) : List Bool :=
  [Column.converts r.origin_url, Column.converts r.username_value,
    Column.converts r.password_value, Column.converts r.date_created]

/-- Which columns of a stored cookie row convert, in the order of the
statement. -/
def StoredCookie.converts (r : StoredCookie) : List Bool :=
  [Column.converts r.name, Column.converts r.encrypted_value, Column.converts r.host_key,
    Column.converts r.path, Column.converts r.creation_utc, Column.converts r.expires_utc,
    Column.converts r.is_secure, Column.converts r.is_httponly, Column.converts r.has_expires,
    Column.converts r.is_persistent]

/-- Whether the scan of a row stores column `k` (counted from 0): the columns
0 to `k` all convert. -/
def reached (converts : List Bool) (k : Nat) : Bool :=
  (converts.take (k + 1)).all id

/-- What the destination variable of column `k` holds after the scan, by the
row's columns: the column's value if the scan stores it, the zero value of the
variable if not. -/
def storedOr {α : Type} (converts : List Bool) (k : Nat) (col : Column α) (zero : α) : α :=
  if reached converts k then Column.valueOr col zero else zero

/-! ## The parsers -/

/-- The function `parseBookmarks`. -/
def parseBookmarks (u : Utils) (w : World) (s : State) : State :=
  let s := logIfErr w.readFileErr s
  let r := w.bookmarks
  let bookmarkList :=
    if r.Exists then
      (r.Get "roots").forEachValues.foldl
        (fun bookmarkList value => (getBookmarkChildren value bookmarkList u).2) s.bookmarkList
    else s.bookmarkList
  { s with bookmarkList := bookmarkList, FullData := { s.FullData with Bookmarks := bookmarkList } }

/-- One round of the loop of `parseLogin`. -/
def parseLoginRow (u : Utils) (s : State) (row : LoginRow) : State :=
  let login : LoginData :=
    { UserName := row.username
      encryptPass := row.pwd
      Password := ""
      LoginUrl := row.url
      CreateDate := u.TimeEpochFormat row.create }
  if row.pwd.length > 3 then
    let r := u.Aes128CBCDecrypt (row.pwd.drop 3)
    let s := { s with events := s.events ++ [Event.decrypt (row.pwd.drop 3)] }
    let login := { login with Password := r.1 }
    let s := logIfErr r.2 s
    { s with loginItemList := s.loginItemList ++ [login] }
  else
    let s := logIfErr row.scanErr s
    { s with loginItemList := s.loginItemList ++ [login] }

/-- The function `parseLogin`.  With a nil `loginDB` the call `loginDB.Ping()`
panics, with a nil `rows` the call `rows.Next()` does; the deferred `Close`
calls log their errors, `rows.Close()` first. -/
def parseLogin (u : Utils) (w : World) (s : State) : Except Fault State :=
  match w.loginDB with
  | .error _ => .error Fault.nilDereference
  | .ok loginDB =>
    match loginDB.query with
    | .error _ => .error Fault.nilDereference
    | .ok rows =>
      let s := rows.rows.foldl (parseLoginRow u) s
      let s := { s with FullData := { s.FullData with LoginData := s.loginItemList } }
      .ok (logIfErr loginDB.closeErr (logIfErr rows.closeErr s))

/-- One round of the loop of `parseCookie`. -/
def parseCookieRow (u : Utils) (s : State) (row : CookieRow) : State :=
  let cookies : Cookies :=
    { KeyName := row.key
      encryptValue := row.encryptValue
      Value := ""
      Host := row.host
      Path := row.path
      IsSecure := IntToBool row.isSecure
      IsHTTPOnly := IntToBool row.isHTTPOnly
      HasExpire := IntToBool row.hasExpire
      IsPersistent := IntToBool row.isPersistent
      CreateDate := u.TimeEpochFormat row.createDate
      ExpireDate := u.TimeEpochFormat row.expireDate }
  if row.encryptValue.length > 3 then
    let r := u.Aes128CBCDecrypt (row.encryptValue.drop 3)
    let s := { s with events := s.events ++ [Event.decrypt (row.encryptValue.drop 3)] }
    let cookies := { cookies with Value := r.1 }
    { s with cookieList := s.cookieList ++ [cookies] }
  else
    { s with cookieList := s.cookieList ++ [cookies] }

/-- The function `parseCookie`. -/
def parseCookie (u : Utils) (w : World) (s : State) : Except Fault State :=
  match w.cookieDB with
  | .error _ => .error Fault.nilDereference
  | .ok cookieDB =>
    match cookieDB.query with
    | .error _ => .error Fault.nilDereference
    | .ok rows =>
      let s := rows.rows.foldl (parseCookieRow u) s
      let s := { s with FullData := { s.FullData with Cookies := s.cookieList } }
      .ok (logIfErr cookieDB.closeErr (logIfErr rows.closeErr s))

/-- One round of the loop of `parseHistory`. -/
def parseHistoryRow (u : Utils) (s : State) (row : HistoryRow) : State :=
  let history : History :=
    { Url := row.url
      Title := row.title
      VisitCount := row.visitCount
      LastVisitTime := u.TimeEpochFormat row.lastVisitTime }
  match row.scanErr with
  | some e => { s with events := s.events ++ [Event.logged e] }
  | none => { s with historyList := s.historyList ++ [history] }

/-- The function `parseHistory`. -/
def parseHistory (u : Utils) (w : World) (s : State) : Except Fault State :=
  match w.historyDB with
  | .error _ => .error Fault.nilDereference
  | .ok historyDB =>
    match historyDB.query with
    | .error _ => .error Fault.nilDereference
    | .ok rows =>
      let s := rows.rows.foldl (parseHistoryRow u) s
      let s := { s with FullData := { s.FullData with History := s.historyList } }
      .ok (logIfErr historyDB.closeErr (logIfErr rows.closeErr s))

/-- The function `ParseDB`. -/
def ParseDB (u : Utils) (w : World) (dbname : String) (s : State) : Except Fault State :=
  if dbname = u.LoginData then parseLogin u w s
  else if dbname = u.Bookmarks then .ok (parseBookmarks u w s)
  else if dbname = u.Cookies then parseCookie u w s
  else if dbname = u.History then parseHistory u w s
  else .ok s

/-! ## Summaries of one loop round -/

/-- The events of `if err != nil { log.Println(err) }`. -/
def errLog (err : Option Err) : List Event :=
  match err with
  | some e => [Event.logged e]
  | none => []

/-- The record a round of the loop of `parseLogin` appends. -/
def loginRecord (u : Utils) (row : LoginRow) : LoginData :=
  { UserName := row.username
    encryptPass := row.pwd
    Password := if row.pwd.length > 3 then (u.Aes128CBCDecrypt (row.pwd.drop 3)).1 else ""
    LoginUrl := row.url
    CreateDate := u.TimeEpochFormat row.create }

/-- The events of a round of the loop of `parseLogin`. -/
def loginEvents (u : Utils) (row : LoginRow) : List Event :=
  if row.pwd.length > 3 then
    Event.decrypt (row.pwd.drop 3) :: errLog (u.Aes128CBCDecrypt (row.pwd.drop 3)).2
  else errLog row.scanErr

/-- The record a round of the loop of `parseCookie` appends. -/
def cookieRecord (u : Utils) (row : CookieRow) : Cookies :=
  { KeyName := row.key
    encryptValue := row.encryptValue
    Value :=
      if row.encryptValue.length > 3 then (u.Aes128CBCDecrypt (row.encryptValue.drop 3)).1
      else ""
    Host := row.host
    Path := row.path
    IsSecure := IntToBool row.isSecure
    IsHTTPOnly := IntToBool row.isHTTPOnly
    HasExpire := IntToBool row.hasExpire
    IsPersistent := IntToBool row.isPersistent
    CreateDate := u.TimeEpochFormat row.createDate
    ExpireDate := u.TimeEpochFormat row.expireDate }

/-- The events of a round of the loop of `parseCookie`. -/
def cookieEvents (row : CookieRow) : List Event :=
  if row.encryptValue.length > 3 then [Event.decrypt (row.encryptValue.drop 3)] else []

/-- The record a round of the loop of `parseHistory` appends when the scan
succeeded. -/
def historyRecord (u : Utils) (row : HistoryRow) : History :=
  { Url := row.url
    Title := row.title
    VisitCount := row.visitCount
    LastVisitTime := u.TimeEpochFormat row.lastVisitTime }

/-- Whether an event is a call of the decryptor. -/
def Event.isDecrypt (e : Event) : Bool :=
  match e with
  | Event.decrypt _ => true
  | Event.logged _ => false

/-- The decryptor calls among the events. -/
def decryptCalls (events : List Event) : List Event :=
  events.filter Event.isDecrypt

/-! ## What a parser leaves alone -/

/-- Everything of the state that does not belong to the logins is the same in
`s` and `t`. -/
def sameOutsideLogins (s t : State) : Prop :=
  t.FullData.BrowserName = s.FullData.BrowserName
  ∧ t.FullData.Bookmarks = s.FullData.Bookmarks
  ∧ t.FullData.Cookies = s.FullData.Cookies
  ∧ t.FullData.History = s.FullData.History
  ∧ t.bookmarkList = s.bookmarkList
  ∧ t.cookieList = s.cookieList
  ∧ t.historyList = s.historyList

instance (s t : State) : Decidable (sameOutsideLogins s t) := by
  unfold sameOutsideLogins
  infer_instance

/-- Everything of the state that does not belong to the bookmarks is the same
in `s` and `t`. -/
def sameOutsideBookmarks (s t : State) : Prop :=
  t.FullData.BrowserName = s.FullData.BrowserName
  ∧ t.FullData.LoginData = s.FullData.LoginData
  ∧ t.FullData.Cookies = s.FullData.Cookies
  ∧ t.FullData.History = s.FullData.History
  ∧ t.loginItemList = s.loginItemList
  ∧ t.cookieList = s.cookieList
  ∧ t.historyList = s.historyList

instance (s t : State) : Decidable (sameOutsideBookmarks s t) := by
  unfold sameOutsideBookmarks
  infer_instance

/-- Everything of the state that does not belong to the cookies is the same in
`s` and `t`. -/
def sameOutsideCookies (s t : State) : Prop :=
  t.FullData.BrowserName = s.FullData.BrowserName
  ∧ t.FullData.LoginData = s.FullData.LoginData
  ∧ t.FullData.Bookmarks = s.FullData.Bookmarks
  ∧ t.FullData.History = s.FullData.History
  ∧ t.loginItemList = s.loginItemList
  ∧ t.bookmarkList = s.bookmarkList
  ∧ t.historyList = s.historyList

instance (s t : State) : Decidable (sameOutsideCookies s t) := by
  unfold sameOutsideCookies
  infer_instance

/-- Everything of the state that does not belong to the history is the same in
`s` and `t`. -/
def sameOutsideHistory (s t : State) : Prop :=
  t.FullData.BrowserName = s.FullData.BrowserName
  ∧ t.FullData.LoginData = s.FullData.LoginData
  ∧ t.FullData.Bookmarks = s.FullData.Bookmarks
  ∧ t.FullData.Cookies = s.FullData.Cookies
  ∧ t.loginItemList = s.loginItemList
  ∧ t.bookmarkList = s.bookmarkList
  ∧ t.cookieList = s.cookieList

instance (s t : State) : Decidable (sameOutsideHistory s t) := by
  unfold sameOutsideHistory
  infer_instance

/-! ## Sample inputs -/

/-- The document of the specification's bookmark example.  No node has a
"date_added" member. -/
def specDocument : Result :=
  .object "" [("roots", .object "" [("bookmark_bar", .object "" [("children", .array "" [
    .object "" [("id", .string "1" 1), ("name", .string "A" 0), ("type", .string "url" 0),
      ("url", .string "http://x" 0)],
    .object "" [("id", .string "2" 2), ("name", .string "Folder" 0),
      ("type", .string "folder" 0),
      ("children", .array "" [
        .object "" [("id", .string "3" 3), ("name", .string "B" 0), ("type", .string "url" 0),
          ("url", .string "http://y" 0)]])]])])])]

/-- The node "Folder" of `specDocument`. -/
def folderNode : Result :=
  .object "" [("id", .string "2" 2), ("name", .string "Folder" 0),
    ("type", .string "folder" 0),
    ("children", .array "" [
      .object "" [("id", .string "3" 3), ("name", .string "B" 0), ("type", .string "url" 0),
        ("url", .string "http://y" 0)]])]

/-- A `utils` package with four distinct selectors, timestamps tagged by the
integer they come from, and the given decryptor. -/
def sampleUtils (decrypt : Bytes → String × Option Err) : Utils :=
  { LoginData := "Login Data"
    Bookmarks := "Bookmarks"
    Cookies := "Cookies"
    History := "History"
    TimeEpochFormat := fun n => ⟨n⟩
    Aes128CBCDecrypt := decrypt }

/-- The state of the package before any parser has run. -/
def initialState : State :=
  { FullData :=
      { BrowserName := "", LoginData := [], Bookmarks := [], Cookies := [], History := [] }
    bookmarkList := []
    cookieList := []
    historyList := []
    loginItemList := []
    events := [] }

/-- A store whose `Query` fails. -/
def brokenDB (ρ : Type) : DB ρ :=
  { pingErr := some "unable to open database file"
    query := .error "unable to open database file"
    closeErr := none }

/-- A world with the given bookmark document and three stores whose `Query`
fails. -/
def bookmarkWorld (doc : Result) : World :=
  { loginDB := .ok (brokenDB LoginRow)
    cookieDB := .ok (brokenDB CookieRow)
    historyDB := .ok (brokenDB HistoryRow)
    readFileErr := none
    bookmarks := doc }

/-- A store with the given rows, whose calls all succeed. -/
def healthyDB {ρ : Type} (rows : List ρ) : DB ρ :=
  { pingErr := none
    query := .ok { rows := rows, closeErr := none }
    closeErr := none }

/-- A world whose login store holds the given rows; the other stores fail
their `Query` and there is no bookmark document. -/
def loginWorld (rows : List LoginRow) : World :=
  { loginDB := .ok (healthyDB rows)
    cookieDB := .ok (brokenDB CookieRow)
    historyDB := .ok (brokenDB HistoryRow)
    readFileErr := some "open Bookmarks: no such file or directory"
    bookmarks := Result.missing }

/-- A world whose cookie store holds the given rows. -/
def cookieWorld (rows : List CookieRow) : World :=
  { loginDB := .ok (brokenDB LoginRow)
    cookieDB := .ok (healthyDB rows)
    historyDB := .ok (brokenDB HistoryRow)
    readFileErr := some "open Bookmarks: no such file or directory"
    bookmarks := Result.missing }

/-- A login row whose password value is the three bytes of the prefix "v10"
and nothing else. -/
def prefixOnlyLogin : LoginRow :=
  { url := "https://example.org/login"
    username := "alice"
    pwd := [118, 49, 48]
    create := 13228167038000000
    scanErr := none }

/-- A login row whose password value is the prefix "v10" followed by two
bytes. -/
def shortCipherLogin : LoginRow :=
  { url := "https://example.org/login"
    username := "alice"
    pwd := [118, 49, 48, 7, 9]
    create := 13228167038000000
    scanErr := none }

/-- A cookie row with is_secure = 1 and is_httponly = 0, and the prefix "v10"
followed by two bytes as encrypted value. -/
def sampleCookie : CookieRow :=
  { key := "sid"
    encryptValue := [118, 49, 48, 7, 9]
    host := ".example.org"
    path := "/"
    createDate := 13228167038000000
    expireDate := 13259703038000000
    isSecure := 1
    isHTTPOnly := 0
    hasExpire := 1
    isPersistent := 1
    scanErr := none }

/-- A decryptor that rejects every input and hands back a string with the
error. -/
def rejectingDecrypt (_ : Bytes) : String × Option Err :=
  ("garbled", some "crypto/cipher: input not full blocks")

/-- A decryptor that accepts every input. -/
def constantDecrypt (_ : Bytes) : String × Option Err :=
  ("plain", none)

/-- A world whose history store holds the given rows. -/
def historyWorld (rows : List HistoryRow) : World :=
  { loginDB := .ok (brokenDB LoginRow)
    cookieDB := .ok (brokenDB CookieRow)
    historyDB := .ok (healthyDB rows)
    readFileErr := some "open Bookmarks: no such file or directory"
    bookmarks := Result.missing }

/-- A world in which `sql.Open` itself fails for the three stores. -/
def unopenedWorld : World :=
  { loginDB := .error "sql: unknown driver"
    cookieDB := .error "sql: unknown driver"
    historyDB := .error "sql: unknown driver"
    readFileErr := none
    bookmarks := specDocument }

/-- A state in which every kind has one record accumulated. -/
def filledState : State :=
  { FullData :=
      { BrowserName := "Chrome"
        LoginData := [⟨"bob", [], "", "https://example.org/", ⟨0⟩⟩]
        Bookmarks := [⟨"1", ⟨0⟩, "http://x", "A", "url"⟩]
        Cookies := [⟨"sid", [], "", ".example.org", "/", true, false, true, true, ⟨0⟩, ⟨0⟩⟩]
        History := [⟨"http://x", "X", 1, ⟨0⟩⟩] }
    bookmarkList := [⟨"1", ⟨0⟩, "http://x", "A", "url"⟩]
    cookieList := [⟨"sid", [], "", ".example.org", "/", true, false, true, true, ⟨0⟩, ⟨0⟩⟩]
    historyList := [⟨"http://x", "X", 1, ⟨0⟩⟩]
    loginItemList := [⟨"bob", [], "", "https://example.org/", ⟨0⟩⟩]
    events := [] }

/-- A stored login row with a NULL user name, a NULL password value and the
creation date 5. -/
def nullUserLogin : StoredLogin :=
  { origin_url := .ok "https://example.org/login"
    username_value := .error "converting NULL to string is unsupported"
    password_value := .ok []
    date_created := .ok 5 }

/-- A stored login row with a NULL user name and a password value of the
prefix "v10" followed by two bytes. -/
def nullUserCipherLogin : StoredLogin :=
  { origin_url := .ok "https://example.org/login"
    username_value := .error "converting NULL to string is unsupported"
    password_value := .ok [118, 49, 48, 7, 9]
    date_created := .ok 5 }

/-- A stored login row whose columns all convert, with the bare prefix "v10"
as password value. -/
def storedPrefixOnlyLogin : StoredLogin :=
  { origin_url := .ok "https://example.org/login"
    username_value := .ok "alice"
    password_value := .ok [118, 49, 48]
    date_created := .ok 13228167038000000 }

/-- A stored cookie row with a NULL host key and all four flags stored as
1. -/
def nullHostCookie : StoredCookie :=
  { name := .ok "sid"
    encrypted_value := .ok [118, 49, 48, 7, 9]
    host_key := .error "converting NULL to string is unsupported"
    path := .ok "/"
    creation_utc := .ok 13228167038000000
    expires_utc := .ok 13259703038000000
    is_secure := .ok 1
    is_httponly := .ok 1
    has_expires := .ok 1
    is_persistent := .ok 1 }

/-- A stored cookie row whose columns all convert, with is_secure = 1 and
is_httponly = 0. -/
def storedSampleCookie : StoredCookie :=
  { name := .ok "sid"
    encrypted_value := .ok [118, 49, 48, 7, 9]
    host_key := .ok ".example.org"
    path := .ok "/"
    creation_utc := .ok 13228167038000000
    expires_utc := .ok 13259703038000000
    is_secure := .ok 1
    is_httponly := .ok 0
    has_expires := .ok 1
    is_persistent := .ok 1 }

/-! ## Lemmas on the bookmark traversal -/

theorem attach_flatMap_val {α β : Type} (l : List α) (f : α → List β) :
    l.attach.flatMap (fun v => f v.1) = l.flatMap f := by
  rw [← List.flatMap_map Subtype.val f l.attach, List.attach_map_subtype_val]

theorem getBookmarkChildren_unfold (value : Result) (l : List Bookmarks) (u : Utils) :
    getBookmarkChildren value l u =
      if (value.Get bookmarkType).Exists then
        if (value.Get bookmarkChildren).Exists && (value.Get bookmarkChildren).IsArray then
          (value.Get bookmarkChildren).Array.foldl
            (fun (st : Result × List Bookmarks) v => getBookmarkChildren v st.2 u)
            (value.Get bookmarkChildren, l ++ [bookmarkOf value u])
        else (value.Get bookmarkChildren, l ++ [bookmarkOf value u])
      else (value.Get bookmarkChildren, l) := by
  rw [getBookmarkChildren]
  simp only [bookmarkOf]
  split
  · split
    · rw [List.foldl_attach (value.Get bookmarkChildren).Array
        (fun (st : Result × List Bookmarks) v => getBookmarkChildren v st.2 u)]
    · rfl
  · rfl

theorem subtreeNodes_unfold (value : Result) :
    subtreeNodes value =
      value :: (if (value.Get bookmarkChildren).IsArray then
        (value.Get bookmarkChildren).Array.flatMap subtreeNodes else []) := by
  rw [subtreeNodes]
  split
  · rw [attach_flatMap_val (value.Get bookmarkChildren).Array subtreeNodes]
  · rfl

theorem typedNodes_unfold (value : Result) :
    typedNodes value =
      if (value.Get bookmarkType).Exists then
        value :: (if (value.Get bookmarkChildren).IsArray then
          (value.Get bookmarkChildren).Array.flatMap typedNodes else [])
      else [] := by
  rw [typedNodes]
  split
  · split
    · rw [attach_flatMap_val (value.Get bookmarkChildren).Array typedNodes]
    · rfl
  · rfl

theorem isArray_exists (c : Result) : (c.Exists && c.IsArray) = c.IsArray := by
  cases c <;> rfl

theorem foldl_children_snd (u : Utils) (vs : List Result)
    (ih : ∀ v ∈ vs, ∀ l, (getBookmarkChildren v l u).2 = l ++ emitted u v) :
    ∀ (c : Result) (l : List Bookmarks),
      (vs.foldl (fun (st : Result × List Bookmarks) v => getBookmarkChildren v st.2 u) (c, l)).2
        = l ++ vs.flatMap (emitted u) := by
  induction vs with
  | nil => intro c l; simp
  | cons v rest ihr =>
    intro c l
    simp only [List.foldl_cons, List.flatMap_cons]
    have hv := ih v (List.mem_cons_self _ _) l
    have hrest := ihr (fun w hw => ih w (List.mem_cons_of_mem _ hw))
      (getBookmarkChildren v l u).1 (getBookmarkChildren v l u).2
    rw [hrest, hv, List.append_assoc]

theorem getBookmarkChildren_snd_aux (u : Utils) :
    ∀ (n : Nat) (value : Result), sizeOf value < n →
      ∀ l, (getBookmarkChildren value l u).2 = l ++ emitted u value := by
  intro n
  induction n with
  | zero => intro value h; omega
  | succ n ih =>
    intro value hsz l
    have key : ∀ v ∈ (value.Get bookmarkChildren).Array,
        (value.Get bookmarkChildren).IsArray = true →
        ∀ l, (getBookmarkChildren v l u).2 = l ++ emitted u v := by
      intro v hv harr
      exact ih v (by have := sizeOf_elem_lt_of_children hv harr; omega)
    unfold emitted
    rw [getBookmarkChildren_unfold value l, getBookmarkChildren_unfold value []]
    split
    · split
      · rename_i h2
        have harr : (value.Get bookmarkChildren).IsArray = true := by
          simp at h2; exact h2.2
        rw [foldl_children_snd u _ (fun v hv => key v hv harr),
          foldl_children_snd u _ (fun v hv => key v hv harr)]
        simp
      · simp
    · simp

/-- A call of `getBookmarkChildren` appends to the list it finds, and what it
appends does not depend on that list. -/
theorem getBookmarkChildren_snd (u : Utils) (value : Result) (l : List Bookmarks) :
    (getBookmarkChildren value l u).2 = l ++ emitted u value :=
  getBookmarkChildren_snd_aux u (sizeOf value + 1) value (Nat.lt_succ_self _) l

theorem emitted_eq (u : Utils) (value : Result) :
    emitted u value =
      if (value.Get bookmarkType).Exists then
        bookmarkOf value u ::
          (if (value.Get bookmarkChildren).IsArray then
            (value.Get bookmarkChildren).Array.flatMap (emitted u)
          else [])
      else [] := by
  have h : emitted u value = (getBookmarkChildren value [] u).2 := rfl
  rw [h, getBookmarkChildren_unfold, isArray_exists]
  split
  · split
    · rw [foldl_children_snd u _ (fun v _ l => getBookmarkChildren_snd u v l)]
      simp
    · simp
  · simp

theorem flatMap_congr_mem {α β : Type} (l : List α) (f g : α → List β)
    (h : ∀ x ∈ l, f x = g x) : l.flatMap f = l.flatMap g := by
  induction l with
  | nil => rfl
  | cons a rest ih =>
    simp only [List.flatMap_cons]
    rw [h a (List.mem_cons_self _ _), ih (fun x hx => h x (List.mem_cons_of_mem _ hx))]

theorem emitted_eq_typedNodes_aux (u : Utils) :
    ∀ (n : Nat) (value : Result), sizeOf value < n →
      emitted u value = (typedNodes value).map (fun v => bookmarkOf v u) := by
  intro n
  induction n with
  | zero => intro value h; omega
  | succ n ih =>
    intro value hsz
    rw [emitted_eq, typedNodes_unfold]
    split
    · split
      · rename_i harr
        simp only [List.map_cons, List.map_flatMap]
        congr 1
        apply flatMap_congr_mem
        intro v hv
        exact ih v (by have := sizeOf_elem_lt_of_children hv harr; omega)
      · rfl
    · rfl

/-- The records a call adds are those of the typed nodes reached through
typed nodes, in pre-order. -/
theorem emitted_eq_typedNodes (u : Utils) (value : Result) :
    emitted u value = (typedNodes value).map (fun v => bookmarkOf v u) :=
  emitted_eq_typedNodes_aux u (sizeOf value + 1) value (Nat.lt_succ_self _)

theorem typedNodes_eq_subtreeNodes_aux :
    ∀ (n : Nat) (value : Result), sizeOf value < n →
      (∀ v ∈ subtreeNodes value, (v.Get bookmarkType).Exists = true) →
      typedNodes value = subtreeNodes value := by
  intro n
  induction n with
  | zero => intro value h; omega
  | succ n ih =>
    intro value hsz hall
    rw [subtreeNodes_unfold] at hall
    rw [typedNodes_unfold, subtreeNodes_unfold]
    have hroot : (value.Get bookmarkType).Exists = true := hall value (List.mem_cons_self _ _)
    rw [if_pos hroot]
    congr 1
    split
    · rename_i harr
      rw [if_pos harr] at hall
      apply flatMap_congr_mem
      intro v hv
      apply ih v (by have := sizeOf_elem_lt_of_children hv harr; omega)
      intro x hx
      apply hall x
      apply List.mem_cons_of_mem
      exact List.mem_flatMap.mpr ⟨v, hv, hx⟩
    · rfl

theorem typedNodes_eq_subtreeNodes (value : Result)
    (hall : ∀ v ∈ subtreeNodes value, (v.Get bookmarkType).Exists = true) :
    typedNodes value = subtreeNodes value :=
  typedNodes_eq_subtreeNodes_aux (sizeOf value + 1) value (Nat.lt_succ_self _) hall

theorem foldl_roots (u : Utils) (vs : List Result) :
    ∀ l : List Bookmarks,
      vs.foldl (fun bookmarkList value => (getBookmarkChildren value bookmarkList u).2) l
        = l ++ vs.flatMap (emitted u) := by
  induction vs with
  | nil => intro l; simp
  | cons v rest ih =>
    intro l
    simp only [List.foldl_cons, List.flatMap_cons]
    rw [ih, getBookmarkChildren_snd, List.append_assoc]

theorem foldl_pairs_snd (u : Utils) (vs : List Result) (c : Result) (l : List Bookmarks) :
    (vs.foldl (fun (st : Result × List Bookmarks) v => getBookmarkChildren v st.2 u) (c, l)).2
      = vs.foldl (fun bookmarkList value => (getBookmarkChildren value bookmarkList u).2) l := by
  rw [foldl_children_snd u vs (fun v _ l => getBookmarkChildren_snd u v l), foldl_roots]

theorem parseBookmarks_bookmarkList (u : Utils) (w : World) (s : State) :
    (parseBookmarks u w s).bookmarkList =
      s.bookmarkList ++
        (if w.bookmarks.Exists then
          (w.bookmarks.Get "roots").forEachValues.flatMap
            (fun value => (typedNodes value).map (fun v => bookmarkOf v u))
        else []) := by
  have hlog : (logIfErr w.readFileErr s).bookmarkList = s.bookmarkList := by
    cases w.readFileErr <;> rfl
  simp only [parseBookmarks, hlog]
  split
  · rw [foldl_roots]
    congr 1
    apply flatMap_congr_mem
    intro v _
    exact emitted_eq_typedNodes u v
  · simp

/-! ## Bookmarks: the claims -/

/-- C1, counterexample: on the specification's example document, starting from
the empty bookmark list, `parseBookmarks` emits no record at all, because the
node under "bookmark_bar" carries no "type"; the result is not the sequence
with ids 1, 2, 3. -/
theorem parseBookmarks_specDocument_emits_nothing :
    (parseBookmarks (sampleUtils (fun _ => ("", none))) (bookmarkWorld specDocument)
        initialState).bookmarkList = []
    ∧ (parseBookmarks (sampleUtils (fun _ => ("", none))) (bookmarkWorld specDocument)
        initialState).FullData.Bookmarks = []
    ∧ (parseBookmarks (sampleUtils (fun _ => ("", none))) (bookmarkWorld specDocument)
        initialState).FullData.Bookmarks.map (fun b => b.ID) ≠ ["1", "2", "3"] := by
  have h : (parseBookmarks (sampleUtils (fun _ => ("", none))) (bookmarkWorld specDocument)
      initialState).bookmarkList = [] := by
    rw [parseBookmarks_bookmarkList]
    simp [bookmarkWorld, specDocument, initialState, Result.Exists, Result.Get, Result.lookup,
      Result.forEachValues, typedNodes_unfold, bookmarkType]
  have h2 : (parseBookmarks (sampleUtils (fun _ => ("", none))) (bookmarkWorld specDocument)
      initialState).FullData.Bookmarks
      = (parseBookmarks (sampleUtils (fun _ => ("", none))) (bookmarkWorld specDocument)
      initialState).bookmarkList := rfl
  refine ⟨h, by rw [h2, h], ?_⟩
  rw [h2, h]
  simp

/-- C1, amended: `parseBookmarks` appends to the bookmark list, for each value
under "roots" in order, the records of the nodes that carry a "type" and are
reached through nodes that carry one, in pre-order, and stores the list in
`FullData.Bookmarks`; a node without a "type" contributes nothing, its
"children" are not visited.  On the specification's example document nothing
is appended. -/
theorem parseBookmarks_appends_typedNodes (u : Utils) (w : World) (s : State) :
    (parseBookmarks u w s).bookmarkList =
      s.bookmarkList ++
        (if w.bookmarks.Exists then
          (w.bookmarks.Get "roots").forEachValues.flatMap
            (fun value => (typedNodes value).map (fun v => bookmarkOf v u))
        else [])
    ∧ (parseBookmarks u w s).FullData.Bookmarks = (parseBookmarks u w s).bookmarkList
    ∧ (∀ value : Result, typedNodes value =
        if (value.Get bookmarkType).Exists then
          value :: (if (value.Get bookmarkChildren).IsArray then
            (value.Get bookmarkChildren).Array.flatMap typedNodes else [])
        else [])
    ∧ (parseBookmarks u { w with bookmarks := specDocument } s).bookmarkList = s.bookmarkList := by
  refine ⟨parseBookmarks_bookmarkList u w s, rfl, typedNodes_unfold, ?_⟩
  rw [parseBookmarks_bookmarkList]
  simp [specDocument, Result.Exists, Result.Get, Result.lookup,
    Result.forEachValues, typedNodes_unfold, bookmarkType]

/-- C10: `getBookmarkChildren` is total.  For a node with a "type" it appends
the node's record (`bookmarkOf`: ID, URL, Name and Type are the strings of the
node's members, DateAdded is `TimeEpochFormat` of "date_added") and then, if
"children" is an array, what the calls on its elements append, in array
order; for a node without a "type" it appends nothing.  What a call appends
does not depend on the list it appends to.  If every node of the subtree
carries a "type", the appended records are those of the subtree's nodes in
pre-order. -/
theorem getBookmarkChildren_appends (u : Utils) (value : Result) (l : List Bookmarks) :
    (getBookmarkChildren value l u).2 =
      (if (value.Get bookmarkType).Exists then
        (if (value.Get bookmarkChildren).IsArray then
          (value.Get bookmarkChildren).Array.foldl
            (fun bookmarkList v => (getBookmarkChildren v bookmarkList u).2)
            (l ++ [bookmarkOf value u])
        else l ++ [bookmarkOf value u])
      else l)
    ∧ bookmarkOf value u =
        { ID := (value.Get "id").String
          DateAdded := u.TimeEpochFormat (value.Get "date_added").Int
          URL := (value.Get "url").String
          Name := (value.Get "name").String
          «Type» := (value.Get "type").String }
    ∧ (∀ (v : Result) (l' : List Bookmarks),
        (getBookmarkChildren v l' u).2 = l' ++ (getBookmarkChildren v [] u).2)
    ∧ ((∀ v ∈ subtreeNodes value, (v.Get bookmarkType).Exists = true) →
        (getBookmarkChildren value l u).2
          = l ++ (subtreeNodes value).map (fun v => bookmarkOf v u)) := by
  refine ⟨?_, rfl, fun v l' => getBookmarkChildren_snd u v l', ?_⟩
  · rw [getBookmarkChildren_unfold, isArray_exists]
    split
    · split
      · rw [foldl_pairs_snd]
      · rfl
    · rfl
  · intro hall
    rw [getBookmarkChildren_snd, emitted_eq_typedNodes, typedNodes_eq_subtreeNodes value hall]

/-- C10, witness: the node "Folder" of the example document and its child "B"
both carry a type; the call appends Folder, then B. -/
theorem getBookmarkChildren_appends_witness :
    (∀ v ∈ subtreeNodes folderNode, (v.Get bookmarkType).Exists = true)
    ∧ (getBookmarkChildren folderNode [] (sampleUtils (fun _ => ("", none)))).2
        = [ { ID := "2", DateAdded := ⟨0⟩, URL := "", Name := "Folder", «Type» := "folder" },
            { ID := "3", DateAdded := ⟨0⟩, URL := "http://y", Name := "B", «Type» := "url" } ] := by
  have hall : ∀ v ∈ subtreeNodes folderNode, (v.Get bookmarkType).Exists = true := by
    simp [folderNode, subtreeNodes_unfold, Result.Get, Result.lookup, Result.IsArray,
      Result.Array, Result.Exists, bookmarkType, bookmarkChildren]
  refine ⟨hall, ?_⟩
  have h := (getBookmarkChildren_appends (sampleUtils (fun _ => ("", none))) folderNode []).2.2.2
    hall
  rw [h]
  simp [folderNode, subtreeNodes_unfold, Result.Get, Result.lookup, Result.IsArray,
    Result.Array, Result.String, Result.Int, bookmarkOf, sampleUtils, bookmarkType,
    bookmarkChildren, bookmarkID, bookmarkAdded, bookmarkName, bookmarkUrl]

/-! ## Lemmas on the store parsers -/

theorem logIfErr_eq (err : Option Err) (s : State) :
    logIfErr err s = { s with events := s.events ++ errLog err } := by
  cases err <;> simp [logIfErr, errLog]

theorem parseLoginRow_eq (u : Utils) (s : State) (row : LoginRow) :
    parseLoginRow u s row =
      { s with loginItemList := s.loginItemList ++ [loginRecord u row]
               events := s.events ++ loginEvents u row } := by
  unfold parseLoginRow loginRecord loginEvents
  split <;> simp [logIfErr_eq]

theorem foldl_parseLoginRow (u : Utils) (rows : List LoginRow) :
    ∀ s : State, rows.foldl (parseLoginRow u) s =
      { s with loginItemList := s.loginItemList ++ rows.map (loginRecord u)
               events := s.events ++ rows.flatMap (loginEvents u) } := by
  induction rows with
  | nil => intro s; simp
  | cons row rest ih =>
    intro s
    rw [List.foldl_cons, ih, parseLoginRow_eq]
    simp

theorem parseLogin_ok (u : Utils) (w : World) (db : DB LoginRow) (rows : List LoginRow)
    (closeErr : Option Err) (s : State) :
    parseLogin u { w with loginDB := .ok { db with query := .ok ⟨rows, closeErr⟩ } } s =
      .ok { s with
        loginItemList := s.loginItemList ++ rows.map (loginRecord u)
        FullData := { s.FullData with LoginData := s.loginItemList ++ rows.map (loginRecord u) }
        events := s.events ++ rows.flatMap (loginEvents u) ++ errLog closeErr
          ++ errLog db.closeErr } := by
  simp [parseLogin, foldl_parseLoginRow, logIfErr_eq]

theorem parseCookieRow_eq (u : Utils) (s : State) (row : CookieRow) :
    parseCookieRow u s row =
      { s with cookieList := s.cookieList ++ [cookieRecord u row]
               events := s.events ++ cookieEvents row } := by
  unfold parseCookieRow cookieRecord cookieEvents
  split <;> simp

theorem foldl_parseCookieRow (u : Utils) (rows : List CookieRow) :
    ∀ s : State, rows.foldl (parseCookieRow u) s =
      { s with cookieList := s.cookieList ++ rows.map (cookieRecord u)
               events := s.events ++ rows.flatMap cookieEvents } := by
  induction rows with
  | nil => intro s; simp
  | cons row rest ih =>
    intro s
    rw [List.foldl_cons, ih, parseCookieRow_eq]
    simp

theorem parseCookie_ok (u : Utils) (w : World) (db : DB CookieRow) (rows : List CookieRow)
    (closeErr : Option Err) (s : State) :
    parseCookie u { w with cookieDB := .ok { db with query := .ok ⟨rows, closeErr⟩ } } s =
      .ok { s with
        cookieList := s.cookieList ++ rows.map (cookieRecord u)
        FullData := { s.FullData with Cookies := s.cookieList ++ rows.map (cookieRecord u) }
        events := s.events ++ rows.flatMap cookieEvents ++ errLog closeErr
          ++ errLog db.closeErr } := by
  simp [parseCookie, foldl_parseCookieRow, logIfErr_eq]

theorem parseHistoryRow_eq (u : Utils) (s : State) (row : HistoryRow) :
    parseHistoryRow u s row =
      { s with
        historyList := s.historyList ++
          (if row.scanErr.isNone then [historyRecord u row] else [])
        events := s.events ++ errLog row.scanErr } := by
  unfold parseHistoryRow historyRecord
  cases row.scanErr <;> simp [errLog]

theorem foldl_parseHistoryRow (u : Utils) (rows : List HistoryRow) :
    ∀ s : State, rows.foldl (parseHistoryRow u) s =
      { s with
        historyList := s.historyList ++
          (rows.filter (fun r => r.scanErr.isNone)).map (historyRecord u)
        events := s.events ++ rows.flatMap (fun r => errLog r.scanErr) } := by
  induction rows with
  | nil => intro s; simp
  | cons row rest ih =>
    intro s
    rw [List.foldl_cons, ih, parseHistoryRow_eq]
    cases h : row.scanErr <;> simp [h]

theorem parseHistory_ok (u : Utils) (w : World) (db : DB HistoryRow) (rows : List HistoryRow)
    (closeErr : Option Err) (s : State) :
    parseHistory u { w with historyDB := .ok { db with query := .ok ⟨rows, closeErr⟩ } } s =
      .ok { s with
        historyList := s.historyList ++
          (rows.filter (fun r => r.scanErr.isNone)).map (historyRecord u)
        FullData := { s.FullData with History := s.historyList ++
          (rows.filter (fun r => r.scanErr.isNone)).map (historyRecord u) }
        events := s.events ++ rows.flatMap (fun r => errLog r.scanErr) ++ errLog closeErr
          ++ errLog db.closeErr } := by
  simp [parseHistory, foldl_parseHistoryRow, logIfErr_eq]

theorem decryptCalls_append (a b : List Event) :
    decryptCalls (a ++ b) = decryptCalls a ++ decryptCalls b := by
  simp [decryptCalls]

theorem decryptCalls_errLog (err : Option Err) : decryptCalls (errLog err) = [] := by
  cases err <;> simp [decryptCalls, errLog, Event.isDecrypt]

theorem decryptCalls_loginEvents (u : Utils) (rows : List LoginRow) :
    decryptCalls (rows.flatMap (loginEvents u)) =
      (rows.filter (fun r => r.pwd.length > 3)).map (fun r => Event.decrypt (r.pwd.drop 3)) := by
  induction rows with
  | nil => rfl
  | cons row rest ih =>
    rw [List.flatMap_cons, decryptCalls_append, ih]
    unfold loginEvents
    by_cases h : row.pwd.length > 3
    · have hd : decryptCalls (Event.decrypt (row.pwd.drop 3)
          :: errLog (u.Aes128CBCDecrypt (row.pwd.drop 3)).2) = [Event.decrypt (row.pwd.drop 3)] := by
        have := decryptCalls_errLog (u.Aes128CBCDecrypt (row.pwd.drop 3)).2
        simp only [decryptCalls] at this ⊢
        simp [List.filter_cons, Event.isDecrypt, this]
      simp [h, hd]
    · simp [h, decryptCalls_errLog]

theorem decryptCalls_cookieEvents (rows : List CookieRow) :
    decryptCalls (rows.flatMap cookieEvents) =
      (rows.filter (fun r => r.encryptValue.length > 3)).map
        (fun r => Event.decrypt (r.encryptValue.drop 3)) := by
  induction rows with
  | nil => rfl
  | cons row rest ih =>
    rw [List.flatMap_cons, decryptCalls_append, ih]
    unfold cookieEvents
    by_cases h : row.encryptValue.length > 3
    · simp [h, decryptCalls, Event.isDecrypt]
    · simp [h, decryptCalls]

theorem getElem?_append_middle {α : Type} (l pre post : List α) (x : α) :
    (l ++ (pre ++ x :: post))[l.length + pre.length]? = some x := by
  rw [← List.append_assoc, List.getElem?_append_right (by simp)]
  simp

/-! ## Lemmas on the scan -/

theorem scanLogin_eq (r : StoredLogin) :
    (scanLogin r).url = storedOr r.converts 0 r.origin_url ""
    ∧ (scanLogin r).username = storedOr r.converts 1 r.username_value ""
    ∧ (scanLogin r).pwd = storedOr r.converts 2 r.password_value []
    ∧ (scanLogin r).create = storedOr r.converts 3 r.date_created 0 := by
  obtain ⟨c0, c1, c2, c3⟩ := r
  cases c0 <;> cases c1 <;> cases c2 <;> cases c3 <;>
    simp [scanLogin, scanColumn, storedOr, reached, StoredLogin.converts, Column.converts,
      Column.valueOr]

theorem scanCookie_eq (r : StoredCookie) :
    (scanCookie r).key = storedOr r.converts 0 r.name ""
    ∧ (scanCookie r).encryptValue = storedOr r.converts 1 r.encrypted_value []
    ∧ (scanCookie r).host = storedOr r.converts 2 r.host_key ""
    ∧ (scanCookie r).path = storedOr r.converts 3 r.path ""
    ∧ (scanCookie r).createDate = storedOr r.converts 4 r.creation_utc 0
    ∧ (scanCookie r).expireDate = storedOr r.converts 5 r.expires_utc 0
    ∧ (scanCookie r).isSecure = storedOr r.converts 6 r.is_secure 0
    ∧ (scanCookie r).isHTTPOnly = storedOr r.converts 7 r.is_httponly 0
    ∧ (scanCookie r).hasExpire = storedOr r.converts 8 r.has_expires 0
    ∧ (scanCookie r).isPersistent = storedOr r.converts 9 r.is_persistent 0 := by
  obtain ⟨c0, c1, c2, c3, c4, c5, c6, c7, c8, c9⟩ := r
  rcases c0 with e | v0
  · simp [scanCookie, scanColumn, storedOr, reached, StoredCookie.converts, Column.converts,
      Column.valueOr]
  rcases c1 with e | v1
  · simp [scanCookie, scanColumn, storedOr, reached, StoredCookie.converts, Column.converts,
      Column.valueOr]
  rcases c2 with e | v2
  · simp [scanCookie, scanColumn, storedOr, reached, StoredCookie.converts, Column.converts,
      Column.valueOr]
  rcases c3 with e | v3
  · simp [scanCookie, scanColumn, storedOr, reached, StoredCookie.converts, Column.converts,
      Column.valueOr]
  rcases c4 with e | v4
  · simp [scanCookie, scanColumn, storedOr, reached, StoredCookie.converts, Column.converts,
      Column.valueOr]
  rcases c5 with e | v5
  · simp [scanCookie, scanColumn, storedOr, reached, StoredCookie.converts, Column.converts,
      Column.valueOr]
  rcases c6 with e | v6
  · simp [scanCookie, scanColumn, storedOr, reached, StoredCookie.converts, Column.converts,
      Column.valueOr]
  rcases c7 with e | v7
  · simp [scanCookie, scanColumn, storedOr, reached, StoredCookie.converts, Column.converts,
      Column.valueOr]
  rcases c8 with e | v8
  · simp [scanCookie, scanColumn, storedOr, reached, StoredCookie.converts, Column.converts,
      Column.valueOr]
  rcases c9 with e | v9 <;>
    simp [scanCookie, scanColumn, storedOr, reached, StoredCookie.converts, Column.converts,
      Column.valueOr]

theorem storedOr_length_gt {α : Type} (converts : List Bool) (k : Nat) (col : Column (List α))
    (n : Nat) :
    decide ((storedOr converts k col []).length > n)
      = (reached converts k && decide ((Column.valueOr col []).length > n)) := by
  unfold storedOr
  cases reached converts k <;> simp

theorem storedOr_of_reached {α : Type} (converts : List Bool) (k : Nat) (col : Column α)
    (zero : α) (h : reached converts k = true) :
    storedOr converts k col zero = Column.valueOr col zero := by
  simp [storedOr, h]

theorem reached_login_password (r : StoredLogin) :
    reached r.converts 2 = true ↔
      ∃ url username pwd, r.origin_url = .ok url ∧ r.username_value = .ok username
        ∧ r.password_value = .ok pwd := by
  obtain ⟨c0, c1, c2, c3⟩ := r
  cases c0 <;> cases c1 <;> cases c2 <;>
    simp [reached, StoredLogin.converts, Column.converts]

theorem reached_cookie_value (r : StoredCookie) :
    reached r.converts 1 = true ↔
      ∃ key value, r.name = .ok key ∧ r.encrypted_value = .ok value := by
  obtain ⟨c0, c1, c2, c3, c4, c5, c6, c7, c8, c9⟩ := r
  cases c0 <;> cases c1 <;>
    simp [reached, StoredCookie.converts, Column.converts]

theorem plaintext_storedOr (u : Utils) (converts : List Bool) (k : Nat) (col : Column Bytes) :
    (if (storedOr converts k col []).length > 3 then
        (u.Aes128CBCDecrypt ((storedOr converts k col []).drop 3)).1 else "")
      = (if reached converts k && decide ((Column.valueOr col []).length > 3) then
          (u.Aes128CBCDecrypt ((Column.valueOr col []).drop 3)).1 else "") := by
  unfold storedOr
  cases reached converts k <;> simp

theorem loginRecord_scanLogin (u : Utils) (r : StoredLogin) :
    loginRecord u (scanLogin r) =
      { UserName := storedOr r.converts 1 r.username_value ""
        encryptPass := storedOr r.converts 2 r.password_value []
        Password :=
          if reached r.converts 2 && decide ((Column.valueOr r.password_value []).length > 3)
          then (u.Aes128CBCDecrypt ((Column.valueOr r.password_value []).drop 3)).1
          else ""
        LoginUrl := storedOr r.converts 0 r.origin_url ""
        CreateDate := u.TimeEpochFormat (storedOr r.converts 3 r.date_created 0) } := by
  obtain ⟨h0, h1, h2, h3⟩ := scanLogin_eq r
  unfold loginRecord
  rw [h0, h1, h2, h3, plaintext_storedOr]

theorem cookieRecord_scanCookie (u : Utils) (r : StoredCookie) :
    cookieRecord u (scanCookie r) =
      { KeyName := storedOr r.converts 0 r.name ""
        encryptValue := storedOr r.converts 1 r.encrypted_value []
        Value :=
          if reached r.converts 1 && decide ((Column.valueOr r.encrypted_value []).length > 3)
          then (u.Aes128CBCDecrypt ((Column.valueOr r.encrypted_value []).drop 3)).1
          else ""
        Host := storedOr r.converts 2 r.host_key ""
        Path := storedOr r.converts 3 r.path ""
        IsSecure := IntToBool (storedOr r.converts 6 r.is_secure 0)
        IsHTTPOnly := IntToBool (storedOr r.converts 7 r.is_httponly 0)
        HasExpire := IntToBool (storedOr r.converts 8 r.has_expires 0)
        IsPersistent := IntToBool (storedOr r.converts 9 r.is_persistent 0)
        CreateDate := u.TimeEpochFormat (storedOr r.converts 4 r.creation_utc 0)
        ExpireDate := u.TimeEpochFormat (storedOr r.converts 5 r.expires_utc 0) } := by
  obtain ⟨h0, h1, h2, h3, h4, h5, h6, h7, h8, h9⟩ := scanCookie_eq r
  unfold cookieRecord
  rw [h0, h1, h2, h3, h4, h5, h6, h7, h8, h9, plaintext_storedOr]

theorem decrypt_calls_scanLogin (rows : List StoredLogin) :
    ((rows.map scanLogin).filter (fun r => r.pwd.length > 3)).map
        (fun r => Event.decrypt (r.pwd.drop 3))
      = (rows.filter (fun r => reached r.converts 2
            && decide ((Column.valueOr r.password_value []).length > 3))).map
          (fun r => Event.decrypt ((Column.valueOr r.password_value []).drop 3)) := by
  induction rows with
  | nil => rfl
  | cons r rest ih =>
    have h2 := (scanLogin_eq r).2.2.1
    have hlen := storedOr_length_gt r.converts 2 r.password_value 3
    rw [← h2] at hlen
    simp only [List.map_cons, List.filter_cons, hlen]
    by_cases hr : reached r.converts 2 = true
    · have hv : (scanLogin r).pwd = Column.valueOr r.password_value [] := by
        rw [h2, storedOr_of_reached _ _ _ _ hr]
      by_cases hl : (Column.valueOr r.password_value []).length > 3
      · simp [hr, hl, ih, hv]
      · simp [hr, hl, ih]
    · simp [hr, ih]

theorem decrypt_calls_scanCookie (rows : List StoredCookie) :
    ((rows.map scanCookie).filter (fun r => r.encryptValue.length > 3)).map
        (fun r => Event.decrypt (r.encryptValue.drop 3))
      = (rows.filter (fun r => reached r.converts 1
            && decide ((Column.valueOr r.encrypted_value []).length > 3))).map
          (fun r => Event.decrypt ((Column.valueOr r.encrypted_value []).drop 3)) := by
  induction rows with
  | nil => rfl
  | cons r rest ih =>
    have h2 := (scanCookie_eq r).2.1
    have hlen := storedOr_length_gt r.converts 1 r.encrypted_value 3
    rw [← h2] at hlen
    simp only [List.map_cons, List.filter_cons, hlen]
    by_cases hr : reached r.converts 1 = true
    · have hv : (scanCookie r).encryptValue = Column.valueOr r.encrypted_value [] := by
        rw [h2, storedOr_of_reached _ _ _ _ hr]
      by_cases hl : (Column.valueOr r.encrypted_value []).length > 3
      · simp [hr, hl, ih, hv]
      · simp [hr, hl, ih]
    · simp [hr, ih]

/-! ## Login and cookie rows: the claims -/

/-- C2, counterexample: a stored login row with an absent password value, a
NULL user name and the creation date 5.  The scan stops at the user name, so
the record's creation date is `TimeEpochFormat` of 0, not of the row's 5. -/
theorem parseLogin_failed_scan_zero_fields :
    (Column.valueOr nullUserLogin.password_value []).length ≤ 3
    ∧ nullUserLogin.date_created = .ok 5
    ∧ (∃ s', parseLogin (sampleUtils constantDecrypt) (loginWorld [scanLogin nullUserLogin])
          initialState = .ok s'
        ∧ s'.loginItemList.map (fun r => r.CreateDate)
            = [(sampleUtils constantDecrypt).TimeEpochFormat 0])
    ∧ (sampleUtils constantDecrypt).TimeEpochFormat 0
        ≠ (sampleUtils constantDecrypt).TimeEpochFormat 5 := by
  refine ⟨by decide, rfl, ⟨_, rfl, rfl⟩, by decide⟩

/-- C2, amended: for a stored login row whose password value has at most 3
bytes (none if it is NULL), wherever it stands among the rows, `parseLogin`
returns normally; the record at the row's position has the empty password,
and its user name, url and creation date are what the scan left in the
variables: the row's value for a column that the scan stored (that column and
all before it convert), the zero value otherwise; they are the row's own
values when all four columns convert.  The round for this row only appends
the record and logs the scan error, and the decryptor calls of the run are
those of the other rows. -/
theorem parseLogin_short_password (u : Utils) (w : World) (db : DB LoginRow)
    (closeErr : Option Err) (pre post : List StoredLogin) (row : StoredLogin) (s : State)
    (hlen : (Column.valueOr row.password_value []).length ≤ 3) :
    ∃ s', parseLogin u
        { w with
          loginDB := .ok { db with query := .ok ⟨(pre ++ row :: post).map scanLogin, closeErr⟩ } }
        s
        = .ok s'
      ∧ s'.loginItemList[s.loginItemList.length + pre.length]? =
          some { UserName := storedOr row.converts 1 row.username_value ""
                 encryptPass := storedOr row.converts 2 row.password_value []
                 Password := ""
                 LoginUrl := storedOr row.converts 0 row.origin_url ""
                 CreateDate := u.TimeEpochFormat (storedOr row.converts 3 row.date_created 0) }
      ∧ (∀ (url username : String) (pwd : Bytes) (create : Int),
          row = ⟨.ok url, .ok username, .ok pwd, .ok create⟩ →
          s'.loginItemList[s.loginItemList.length + pre.length]? =
            some { UserName := username
                   encryptPass := pwd
                   Password := ""
                   LoginUrl := url
                   CreateDate := u.TimeEpochFormat create })
      ∧ s'.loginItemList.length = s.loginItemList.length + (pre.length + 1 + post.length)
      ∧ s'.FullData.LoginData = s'.loginItemList
      ∧ (∀ s0 : State, parseLoginRow u s0 (scanLogin row) =
          { s0 with
            loginItemList := s0.loginItemList ++
              [{ UserName := storedOr row.converts 1 row.username_value ""
                 encryptPass := storedOr row.converts 2 row.password_value []
                 Password := ""
                 LoginUrl := storedOr row.converts 0 row.origin_url ""
                 CreateDate :=
                   u.TimeEpochFormat (storedOr row.converts 3 row.date_created 0) }]
            events := s0.events ++ errLog (scanLogin row).scanErr })
      ∧ decryptCalls s'.events = decryptCalls s.events ++
          ((pre ++ post).filter (fun r => reached r.converts 2
              && decide ((Column.valueOr r.password_value []).length > 3))).map
            (fun r => Event.decrypt ((Column.valueOr r.password_value []).drop 3)) := by
  have hnot : ¬ (Column.valueOr row.password_value []).length > 3 := by omega
  have hpwd : ¬ (scanLogin row).pwd.length > 3 := by
    have h := storedOr_length_gt row.converts 2 row.password_value 3
    rw [← (scanLogin_eq row).2.2.1] at h
    intro hgt
    have hh : decide ((scanLogin row).pwd.length > 3) = true := decide_eq_true hgt
    rw [h] at hh
    simp [hnot] at hh
  have hrec : loginRecord u (scanLogin row) =
      { UserName := storedOr row.converts 1 row.username_value ""
        encryptPass := storedOr row.converts 2 row.password_value []
        Password := ""
        LoginUrl := storedOr row.converts 0 row.origin_url ""
        CreateDate := u.TimeEpochFormat (storedOr row.converts 3 row.date_created 0) } := by
    rw [loginRecord_scanLogin]
    simp [hnot]
  have hget : (s.loginItemList ++ ((pre ++ row :: post).map scanLogin).map (loginRecord u))[
      s.loginItemList.length + pre.length]? = some (loginRecord u (scanLogin row)) := by
    rw [List.map_append, List.map_cons, List.map_append, List.map_cons]
    have := getElem?_append_middle s.loginItemList ((pre.map scanLogin).map (loginRecord u))
      ((post.map scanLogin).map (loginRecord u)) (loginRecord u (scanLogin row))
    rw [List.length_map, List.length_map] at this
    exact this
  refine ⟨_, parseLogin_ok u w db ((pre ++ row :: post).map scanLogin) closeErr s,
    ?_, ?_, ?_, rfl, ?_, ?_⟩
  · rw [← hrec]
    exact hget
  · intro url username pwd create hrow
    subst hrow
    exact hget.trans (by rw [hrec]; rfl)
  · show (s.loginItemList ++ ((pre ++ row :: post).map scanLogin).map (loginRecord u)).length = _
    simp
    omega
  · intro s0
    rw [parseLoginRow_eq, hrec]
    simp [loginEvents, hpwd]
  · show decryptCalls (s.events ++ ((pre ++ row :: post).map scanLogin).flatMap (loginEvents u)
      ++ errLog closeErr ++ errLog db.closeErr) = _
    rw [decryptCalls_append, decryptCalls_append, decryptCalls_append, decryptCalls_errLog,
      decryptCalls_errLog, decryptCalls_loginEvents, decrypt_calls_scanLogin]
    simp [List.filter_cons, hnot]

/-- C2, witness: the stored row with the bare prefix "v10" as password value,
alone in its store; all its columns convert. -/
theorem parseLogin_short_password_witness :
    (Column.valueOr storedPrefixOnlyLogin.password_value []).length ≤ 3
    ∧ ∃ s', parseLogin (sampleUtils constantDecrypt)
          (loginWorld [scanLogin storedPrefixOnlyLogin]) initialState = .ok s'
      ∧ s'.loginItemList[0]? =
          some { UserName := "alice"
                 encryptPass := [118, 49, 48]
                 Password := ""
                 LoginUrl := "https://example.org/login"
                 CreateDate := ⟨13228167038000000⟩ }
      ∧ decryptCalls s'.events = [] := by
  refine ⟨by decide, ?_⟩
  obtain ⟨s', h1, _, h3, _, _, _, h7⟩ := parseLogin_short_password
    (sampleUtils constantDecrypt) (loginWorld []) (healthyDB []) none [] []
    storedPrefixOnlyLogin initialState (by decide)
  exact ⟨s', h1, h3 _ _ _ _ rfl, h7⟩

/-- C3, counterexample: a login row whose password value is exactly the three
prefix bytes is not below the 3-byte threshold, yet `parseLogin` does not call
the decryptor for it and stores the empty password, not the decryptor's output
for the remaining (empty) bytes. -/
theorem parseLogin_prefix_only_not_decrypted :
    3 ≤ prefixOnlyLogin.pwd.length
    ∧ (∃ s', parseLogin (sampleUtils constantDecrypt) (loginWorld [prefixOnlyLogin]) initialState
        = .ok s'
      ∧ s'.loginItemList.map (fun r => r.Password) = [""]
      ∧ decryptCalls s'.events = [])
    ∧ ((sampleUtils constantDecrypt).Aes128CBCDecrypt (prefixOnlyLogin.pwd.drop 3)).1 ≠ "" := by
  refine ⟨by decide, ⟨_, rfl, rfl, rfl⟩, by decide⟩

/-- C3, amended: the plaintext field of the record of a stored login or
cookie row is the string the decryptor returns for the stored encrypted bytes
without their first 3 bytes when the scan stored the value (its column and
the columns before it convert) and the value has more than 3 bytes, and the
empty string otherwise; the decryptor is called once for each such row, in
row order, and for no other row. -/
theorem plaintext_field_of_rows (u : Utils) (w : World) (ldb : DB LoginRow) (cdb : DB CookieRow)
    (lrows : List StoredLogin) (crows : List StoredCookie) (lclose cclose : Option Err)
    (s : State) :
    (∃ s', parseLogin u
          { w with loginDB := .ok { ldb with query := .ok ⟨lrows.map scanLogin, lclose⟩ } } s
          = .ok s'
      ∧ (s'.loginItemList.drop s.loginItemList.length).map (fun r => r.Password) =
          lrows.map (fun r =>
            if reached r.converts 2 && decide ((Column.valueOr r.password_value []).length > 3)
            then (u.Aes128CBCDecrypt ((Column.valueOr r.password_value []).drop 3)).1
            else "")
      ∧ decryptCalls s'.events = decryptCalls s.events ++
          (lrows.filter (fun r => reached r.converts 2
              && decide ((Column.valueOr r.password_value []).length > 3))).map
            (fun r => Event.decrypt ((Column.valueOr r.password_value []).drop 3)))
    ∧ (∃ s', parseCookie u
          { w with cookieDB := .ok { cdb with query := .ok ⟨crows.map scanCookie, cclose⟩ } } s
          = .ok s'
      ∧ (s'.cookieList.drop s.cookieList.length).map (fun c => c.Value) =
          crows.map (fun r =>
            if reached r.converts 1
              && decide ((Column.valueOr r.encrypted_value []).length > 3)
            then (u.Aes128CBCDecrypt ((Column.valueOr r.encrypted_value []).drop 3)).1
            else "")
      ∧ decryptCalls s'.events = decryptCalls s.events ++
          (crows.filter (fun r => reached r.converts 1
              && decide ((Column.valueOr r.encrypted_value []).length > 3))).map
            (fun r => Event.decrypt ((Column.valueOr r.encrypted_value []).drop 3)))
    ∧ (∀ r : StoredLogin, reached r.converts 2 = true ↔
        ∃ url username pwd, r.origin_url = .ok url ∧ r.username_value = .ok username
          ∧ r.password_value = .ok pwd)
    ∧ (∀ r : StoredCookie, reached r.converts 1 = true ↔
        ∃ key value, r.name = .ok key ∧ r.encrypted_value = .ok value) := by
  refine ⟨⟨_, parseLogin_ok u w ldb (lrows.map scanLogin) lclose s, ?_, ?_⟩,
    ⟨_, parseCookie_ok u w cdb (crows.map scanCookie) cclose s, ?_, ?_⟩,
    reached_login_password, reached_cookie_value⟩
  · show ((s.loginItemList ++ (lrows.map scanLogin).map (loginRecord u)).drop
      s.loginItemList.length).map _ = _
    rw [List.drop_left, List.map_map, List.map_map]
    apply List.map_congr_left
    intro r _
    show (loginRecord u (scanLogin r)).Password = _
    rw [loginRecord_scanLogin]
  · show decryptCalls (s.events ++ (lrows.map scanLogin).flatMap (loginEvents u)
      ++ errLog lclose ++ errLog ldb.closeErr) = _
    rw [decryptCalls_append, decryptCalls_append, decryptCalls_append, decryptCalls_errLog,
      decryptCalls_errLog, decryptCalls_loginEvents, decrypt_calls_scanLogin]
    simp
  · show ((s.cookieList ++ (crows.map scanCookie).map (cookieRecord u)).drop
      s.cookieList.length).map _ = _
    rw [List.drop_left, List.map_map, List.map_map]
    apply List.map_congr_left
    intro r _
    show (cookieRecord u (scanCookie r)).Value = _
    rw [cookieRecord_scanCookie]
  · show decryptCalls (s.events ++ (crows.map scanCookie).flatMap cookieEvents
      ++ errLog cclose ++ errLog cdb.closeErr) = _
    rw [decryptCalls_append, decryptCalls_append, decryptCalls_append, decryptCalls_errLog,
      decryptCalls_errLog, decryptCalls_cookieEvents, decrypt_calls_scanCookie]
    simp

/-- C4, counterexample: with a decryptor that reports an error and hands back
a string with it, the record of a login row whose value is longer than the
prefix carries that string as password, not the empty string; likewise the
value of a cookie. -/
theorem decrypt_error_field_not_blank :
    3 < shortCipherLogin.pwd.length
    ∧ (rejectingDecrypt (shortCipherLogin.pwd.drop 3)).2 ≠ none
    ∧ (∃ s', parseLogin (sampleUtils rejectingDecrypt) (loginWorld [shortCipherLogin])
          initialState = .ok s'
        ∧ s'.loginItemList.map (fun r => r.Password) = ["garbled"])
    ∧ (∃ s', parseCookie (sampleUtils rejectingDecrypt) (cookieWorld [sampleCookie])
          initialState = .ok s'
        ∧ s'.cookieList.map (fun c => c.Value) = ["garbled"]) := by
  refine ⟨by decide, by decide, ⟨_, rfl, rfl⟩, ⟨_, rfl, rfl⟩⟩

/-- C4, amended: when the value of a login or cookie row is longer than the
prefix and the decryptor reports an error for it, the parser returns normally
and the row's record stands at the row's position, with the string the
decryptor returned along with the error as its decrypted field; that field is
empty when that string is. -/
theorem decrypt_error_keeps_row (u : Utils) (w : World) (ldb : DB LoginRow) (cdb : DB CookieRow)
    (lclose cclose : Option Err) (lpre lpost : List LoginRow) (lrow : LoginRow)
    (cpre cpost : List CookieRow) (crow : CookieRow) (s : State)
    (lout cout : String) (lerr cerr : Err)
    (hl : 3 < lrow.pwd.length)
    (hlerr : u.Aes128CBCDecrypt (lrow.pwd.drop 3) = (lout, some lerr))
    (hc : 3 < crow.encryptValue.length)
    (hcerr : u.Aes128CBCDecrypt (crow.encryptValue.drop 3) = (cout, some cerr)) :
    (∃ s', parseLogin u
          { w with loginDB := .ok { ldb with query := .ok ⟨lpre ++ lrow :: lpost, lclose⟩ } } s
          = .ok s'
        ∧ s'.loginItemList.length = s.loginItemList.length + (lpre.length + 1 + lpost.length)
        ∧ s'.loginItemList[s.loginItemList.length + lpre.length]? =
            some { UserName := lrow.username
                   encryptPass := lrow.pwd
                   Password := lout
                   LoginUrl := lrow.url
                   CreateDate := u.TimeEpochFormat lrow.create })
    ∧ (∃ s', parseCookie u
          { w with cookieDB := .ok { cdb with query := .ok ⟨cpre ++ crow :: cpost, cclose⟩ } } s
          = .ok s'
        ∧ s'.cookieList.length = s.cookieList.length + (cpre.length + 1 + cpost.length)
        ∧ s'.cookieList[s.cookieList.length + cpre.length]? =
            some { KeyName := crow.key
                   encryptValue := crow.encryptValue
                   Value := cout
                   Host := crow.host
                   Path := crow.path
                   IsSecure := IntToBool crow.isSecure
                   IsHTTPOnly := IntToBool crow.isHTTPOnly
                   HasExpire := IntToBool crow.hasExpire
                   IsPersistent := IntToBool crow.isPersistent
                   CreateDate := u.TimeEpochFormat crow.createDate
                   ExpireDate := u.TimeEpochFormat crow.expireDate }) := by
  have hlrec : loginRecord u lrow =
      { UserName := lrow.username, encryptPass := lrow.pwd, Password := lout,
        LoginUrl := lrow.url, CreateDate := u.TimeEpochFormat lrow.create } := by
    simp [loginRecord, hl, hlerr]
  have hcrec : cookieRecord u crow =
      { KeyName := crow.key, encryptValue := crow.encryptValue, Value := cout,
        Host := crow.host, Path := crow.path, IsSecure := IntToBool crow.isSecure,
        IsHTTPOnly := IntToBool crow.isHTTPOnly, HasExpire := IntToBool crow.hasExpire,
        IsPersistent := IntToBool crow.isPersistent,
        CreateDate := u.TimeEpochFormat crow.createDate,
        ExpireDate := u.TimeEpochFormat crow.expireDate } := by
    simp [cookieRecord, hc, hcerr]
  refine ⟨⟨_, parseLogin_ok u w ldb (lpre ++ lrow :: lpost) lclose s, ?_, ?_⟩,
    ⟨_, parseCookie_ok u w cdb (cpre ++ crow :: cpost) cclose s, ?_, ?_⟩⟩
  · show (s.loginItemList ++ (lpre ++ lrow :: lpost).map (loginRecord u)).length = _
    simp
    omega
  · show (s.loginItemList ++ (lpre ++ lrow :: lpost).map (loginRecord u))[
      s.loginItemList.length + lpre.length]? = _
    rw [List.map_append, List.map_cons, hlrec]
    have := getElem?_append_middle s.loginItemList (lpre.map (loginRecord u))
      (lpost.map (loginRecord u)) (loginRecord u lrow)
    rw [List.length_map, hlrec] at this
    exact this
  · show (s.cookieList ++ (cpre ++ crow :: cpost).map (cookieRecord u)).length = _
    simp
    omega
  · show (s.cookieList ++ (cpre ++ crow :: cpost).map (cookieRecord u))[
      s.cookieList.length + cpre.length]? = _
    rw [List.map_append, List.map_cons, hcrec]
    have := getElem?_append_middle s.cookieList (cpre.map (cookieRecord u))
      (cpost.map (cookieRecord u)) (cookieRecord u crow)
    rw [List.length_map, hcrec] at this
    exact this

/-- C4, witness: a decryptor that rejects everything, one login row and one
cookie row with two bytes after the prefix. -/
theorem decrypt_error_keeps_row_witness :
    (3 < shortCipherLogin.pwd.length ∧ 3 < sampleCookie.encryptValue.length)
    ∧ (∃ s', parseLogin (sampleUtils rejectingDecrypt) (loginWorld [shortCipherLogin])
          initialState = .ok s'
        ∧ s'.loginItemList.length = 1
        ∧ s'.loginItemList[0]? =
            some { UserName := "alice"
                   encryptPass := [118, 49, 48, 7, 9]
                   Password := "garbled"
                   LoginUrl := "https://example.org/login"
                   CreateDate := ⟨13228167038000000⟩ })
    ∧ (∃ s', parseCookie (sampleUtils rejectingDecrypt) (cookieWorld [sampleCookie])
          initialState = .ok s'
        ∧ s'.cookieList.length = 1
        ∧ (s'.cookieList[0]?).map (fun c => c.Value) = some "garbled") := by
  have h := decrypt_error_keeps_row (sampleUtils rejectingDecrypt) (loginWorld [])
    (healthyDB []) (healthyDB []) none none [] [] shortCipherLogin [] [] sampleCookie
    initialState "garbled" "garbled" "crypto/cipher: input not full blocks"
    "crypto/cipher: input not full blocks" (by decide) rfl (by decide) rfl
  obtain ⟨⟨s1, h1, h2, h3⟩, _⟩ := h
  have h' := decrypt_error_keeps_row (sampleUtils rejectingDecrypt) (cookieWorld [])
    (healthyDB []) (healthyDB []) none none [] [] shortCipherLogin [] [] sampleCookie
    initialState "garbled" "garbled" "crypto/cipher: input not full blocks"
    "crypto/cipher: input not full blocks" (by decide) rfl (by decide) rfl
  obtain ⟨_, ⟨s2, k1, k2, k3⟩⟩ := h'
  refine ⟨⟨by decide, by decide⟩, ⟨s1, h1, h2, h3⟩, ⟨s2, k1, k2, ?_⟩⟩
  have k3' : s2.cookieList[0]? = _ := k3
  rw [k3']
  rfl

/-- C6: when the query delivers rows, `parseLogin` and `parseCookie` return
normally and the accumulator list afterwards is the list before followed by
one record per row, in row order, whatever the scan error of a row and
whatever the decryptor reports; the list is also what the result slot
holds. -/
theorem parseLogin_parseCookie_append_per_row (u : Utils) (w : World) (ldb : DB LoginRow)
    (cdb : DB CookieRow) (lrows : List LoginRow) (crows : List CookieRow)
    (lclose cclose : Option Err) (s : State) :
    (∃ s', parseLogin u { w with loginDB := .ok { ldb with query := .ok ⟨lrows, lclose⟩ } } s
        = .ok s'
      ∧ s'.loginItemList = s.loginItemList ++ lrows.map (fun r =>
          { UserName := r.username
            encryptPass := r.pwd
            Password := if r.pwd.length > 3 then (u.Aes128CBCDecrypt (r.pwd.drop 3)).1 else ""
            LoginUrl := r.url
            CreateDate := u.TimeEpochFormat r.create })
      ∧ s'.loginItemList.length = s.loginItemList.length + lrows.length
      ∧ s.loginItemList <+: s'.loginItemList
      ∧ s'.FullData.LoginData = s'.loginItemList)
    ∧ (∃ s', parseCookie u { w with cookieDB := .ok { cdb with query := .ok ⟨crows, cclose⟩ } } s
        = .ok s'
      ∧ s'.cookieList = s.cookieList ++ crows.map (fun r =>
          { KeyName := r.key
            encryptValue := r.encryptValue
            Value :=
              if r.encryptValue.length > 3 then (u.Aes128CBCDecrypt (r.encryptValue.drop 3)).1
              else ""
            Host := r.host
            Path := r.path
            IsSecure := IntToBool r.isSecure
            IsHTTPOnly := IntToBool r.isHTTPOnly
            HasExpire := IntToBool r.hasExpire
            IsPersistent := IntToBool r.isPersistent
            CreateDate := u.TimeEpochFormat r.createDate
            ExpireDate := u.TimeEpochFormat r.expireDate })
      ∧ s'.cookieList.length = s.cookieList.length + crows.length
      ∧ s.cookieList <+: s'.cookieList
      ∧ s'.FullData.Cookies = s'.cookieList) := by
  refine ⟨⟨_, parseLogin_ok u w ldb lrows lclose s, rfl, ?_, ?_, rfl⟩,
    ⟨_, parseCookie_ok u w cdb crows cclose s, rfl, ?_, ?_, rfl⟩⟩
  · show (s.loginItemList ++ lrows.map (loginRecord u)).length = _
    simp
  · exact List.prefix_append _ _
  · show (s.cookieList ++ crows.map (cookieRecord u)).length = _
    simp
  · exact List.prefix_append _ _

/-- C7, counterexample: a stored cookie row with a NULL host key and its four
flag columns stored as 1.  The scan stops at the host key, before the flag
columns, so all four flags of the record are false although `IntToBool` of
each flag column is true. -/
theorem parseCookie_failed_scan_flags_false :
    nullHostCookie.is_secure = .ok 1
    ∧ nullHostCookie.is_httponly = .ok 1
    ∧ nullHostCookie.has_expires = .ok 1
    ∧ nullHostCookie.is_persistent = .ok 1
    ∧ IntToBool 1 = true
    ∧ ∃ s', parseCookie (sampleUtils constantDecrypt) (cookieWorld [scanCookie nullHostCookie])
          initialState = .ok s'
        ∧ s'.cookieList.map (fun c => (c.IsSecure, c.IsHTTPOnly, c.HasExpire, c.IsPersistent))
            = [(false, false, false, false)] :=
  ⟨rfl, rfl, rfl, rfl, rfl, _, rfl, rfl⟩

/-- C7, amended: each flag of the record of a stored cookie row is `IntToBool`
of what the scan left in the flag's variable: the value of the flag's own
column (is_secure, is_httponly, has_expires, is_persistent, in that pairing)
when the scan stored it, that is when that column and all before it convert,
and 0 otherwise, which gives false.  For a row whose columns all convert each
flag is `IntToBool` of its own column.  `IntToBool` gives false for 0 and
true for every other integer; is_secure = 1 and is_httponly = 0 give
IsSecure = true, IsHTTPOnly = false. -/
theorem parseCookie_flags (u : Utils) (w : World) (cdb : DB CookieRow)
    (crows : List StoredCookie) (cclose : Option Err) (s : State) :
    (∃ s', parseCookie u
          { w with cookieDB := .ok { cdb with query := .ok ⟨crows.map scanCookie, cclose⟩ } } s
          = .ok s'
      ∧ (s'.cookieList.drop s.cookieList.length).map
          (fun c => (c.IsSecure, c.IsHTTPOnly, c.HasExpire, c.IsPersistent)) =
        crows.map (fun r =>
          (IntToBool (storedOr r.converts 6 r.is_secure 0),
            IntToBool (storedOr r.converts 7 r.is_httponly 0),
            IntToBool (storedOr r.converts 8 r.has_expires 0),
            IntToBool (storedOr r.converts 9 r.is_persistent 0))))
    ∧ (∀ (key : String) (value : Bytes) (host path : String)
        (created expires secure httponly hasExpires persistent : Int),
        (fun c : Cookies => (c.IsSecure, c.IsHTTPOnly, c.HasExpire, c.IsPersistent))
            (cookieRecord u (scanCookie
              ⟨.ok key, .ok value, .ok host, .ok path, .ok created, .ok expires, .ok secure,
                .ok httponly, .ok hasExpires, .ok persistent⟩))
          = (IntToBool secure, IntToBool httponly, IntToBool hasExpires, IntToBool persistent))
    ∧ (∀ (converts : List Bool) (k : Nat) (col : Column Int),
        storedOr converts k col 0 =
          if reached converts k then Column.valueOr col 0 else 0)
    ∧ IntToBool 0 = false
    ∧ (∀ n : Int, IntToBool n = true ↔ n ≠ 0)
    ∧ (∃ s', parseCookie u
          { w with
            cookieDB := .ok { cdb with query := .ok ⟨[scanCookie storedSampleCookie], cclose⟩ } }
          s
          = .ok s'
        ∧ (s'.cookieList.drop s.cookieList.length).map (fun c => (c.IsSecure, c.IsHTTPOnly))
          = [(true, false)]) := by
  refine ⟨⟨_, parseCookie_ok u w cdb (crows.map scanCookie) cclose s, ?_⟩, ?_, ?_, rfl, ?_,
    ⟨_, parseCookie_ok u w cdb [scanCookie storedSampleCookie] cclose s, ?_⟩⟩
  · show ((s.cookieList ++ (crows.map scanCookie).map (cookieRecord u)).drop
      s.cookieList.length).map _ = _
    rw [List.drop_left, List.map_map, List.map_map]
    apply List.map_congr_left
    intro r _
    show ((cookieRecord u (scanCookie r)).IsSecure, (cookieRecord u (scanCookie r)).IsHTTPOnly,
      (cookieRecord u (scanCookie r)).HasExpire, (cookieRecord u (scanCookie r)).IsPersistent)
      = _
    rw [cookieRecord_scanCookie]
  · intro key value host path created expires secure httponly hasExpires persistent
    rfl
  · intro converts k col
    rfl
  · intro n
    unfold IntToBool
    by_cases h : n = 0 <;> simp [h]
  · show ((s.cookieList ++ [scanCookie storedSampleCookie].map (cookieRecord u)).drop
      s.cookieList.length).map _ = _
    rw [List.drop_left]
    rfl

/-! ## History rows -/

/-- C5: when the query delivers rows, `parseHistory` returns normally and the
history list afterwards is the list before followed by one record for each
row whose scan returned no error, in row order; the rows whose scan failed
leave no record, and the rows after them are still processed. -/
theorem parseHistory_skips_failed_scans (u : Utils) (w : World) (hdb : DB HistoryRow)
    (rows : List HistoryRow) (hclose : Option Err) (s : State) :
    ∃ s', parseHistory u { w with historyDB := .ok { hdb with query := .ok ⟨rows, hclose⟩ } } s
        = .ok s'
      ∧ s'.historyList = s.historyList ++
          (rows.filter (fun r => r.scanErr.isNone)).map (fun r =>
            { Url := r.url
              Title := r.title
              VisitCount := r.visitCount
              LastVisitTime := u.TimeEpochFormat r.lastVisitTime })
      ∧ s'.FullData.History = s'.historyList :=
  ⟨_, parseHistory_ok u w hdb rows hclose s, rfl, rfl⟩

/-! ## The dispatcher -/

theorem parseLogin_frame (u : Utils) (w : World) (s s' : State)
    (h : parseLogin u w s = .ok s') : sameOutsideLogins s s' := by
  unfold parseLogin at h
  split at h
  · cases h
  · split at h
    · cases h
    · rename_i rows _
      simp only [foldl_parseLoginRow, logIfErr_eq, Except.ok.injEq] at h
      subst h
      simp [sameOutsideLogins]

theorem parseCookie_frame (u : Utils) (w : World) (s s' : State)
    (h : parseCookie u w s = .ok s') : sameOutsideCookies s s' := by
  unfold parseCookie at h
  split at h
  · cases h
  · split at h
    · cases h
    · rename_i rows _
      simp only [foldl_parseCookieRow, logIfErr_eq, Except.ok.injEq] at h
      subst h
      simp [sameOutsideCookies]

theorem parseHistory_frame (u : Utils) (w : World) (s s' : State)
    (h : parseHistory u w s = .ok s') : sameOutsideHistory s s' := by
  unfold parseHistory at h
  split at h
  · cases h
  · split at h
    · cases h
    · rename_i rows _
      simp only [foldl_parseHistoryRow, logIfErr_eq, Except.ok.injEq] at h
      subst h
      simp [sameOutsideHistory]

theorem parseBookmarks_frame (u : Utils) (w : World) (s : State) :
    sameOutsideBookmarks s (parseBookmarks u w s) := by
  simp [sameOutsideBookmarks, parseBookmarks, logIfErr_eq]

/-- C8: for a selector that is none of the four names `ParseDB` returns the
state it was given.  The four names being distinct, `ParseDB` on a name is
the parser of that name and nothing else.  Whenever a parser returns, the
browser name, the result slots and the accumulator lists of the three other
kinds are as before. -/
theorem ParseDB_frame (u : Utils) (w : World) (dbname : String) (s : State)
    (hdistinct : [u.LoginData, u.Bookmarks, u.Cookies, u.History].Nodup) :
    (dbname ∉ [u.LoginData, u.Bookmarks, u.Cookies, u.History] → ParseDB u w dbname s = .ok s)
    ∧ ParseDB u w u.LoginData s = parseLogin u w s
    ∧ ParseDB u w u.Bookmarks s = .ok (parseBookmarks u w s)
    ∧ ParseDB u w u.Cookies s = parseCookie u w s
    ∧ ParseDB u w u.History s = parseHistory u w s
    ∧ (∀ s', parseLogin u w s = .ok s' → sameOutsideLogins s s')
    ∧ sameOutsideBookmarks s (parseBookmarks u w s)
    ∧ (∀ s', parseCookie u w s = .ok s' → sameOutsideCookies s s')
    ∧ (∀ s', parseHistory u w s = .ok s' → sameOutsideHistory s s') := by
  simp only [List.nodup_cons, List.mem_cons, List.mem_singleton, not_or, List.not_mem_nil,
    not_false_eq_true, List.nodup_nil, and_true] at hdistinct
  obtain ⟨⟨h12, h13, h14⟩, ⟨h23, h24⟩, h34⟩ := hdistinct
  refine ⟨?_, ?_, ?_, ?_, ?_, parseLogin_frame u w s, parseBookmarks_frame u w s,
    parseCookie_frame u w s, parseHistory_frame u w s⟩
  · intro hnot
    simp only [List.mem_cons, List.mem_singleton, not_or, List.not_mem_nil, or_false] at hnot
    obtain ⟨n1, n2, n3, n4⟩ := hnot
    simp [ParseDB, n1, n2, n3, n4]
  · simp [ParseDB]
  · simp [ParseDB, Ne.symm h12]
  · simp [ParseDB, Ne.symm h13, Ne.symm h23]
  · simp [ParseDB, Ne.symm h14, Ne.symm h24, Ne.symm h34]

/-- C8, witness: the sample selectors are distinct; an unknown selector leaves
a filled state as it is, and the bookmark selector changes the bookmarks
only. -/
theorem ParseDB_frame_witness :
    [(sampleUtils constantDecrypt).LoginData, (sampleUtils constantDecrypt).Bookmarks,
      (sampleUtils constantDecrypt).Cookies, (sampleUtils constantDecrypt).History].Nodup
    ∧ ParseDB (sampleUtils constantDecrypt) (bookmarkWorld folderNode) "Preferences" filledState
        = .ok filledState
    ∧ ParseDB (sampleUtils constantDecrypt) (bookmarkWorld folderNode) "Bookmarks" filledState
        = .ok (parseBookmarks (sampleUtils constantDecrypt) (bookmarkWorld folderNode)
            filledState)
    ∧ sameOutsideBookmarks filledState
        (parseBookmarks (sampleUtils constantDecrypt) (bookmarkWorld folderNode) filledState) := by
  have hd : [(sampleUtils constantDecrypt).LoginData, (sampleUtils constantDecrypt).Bookmarks,
      (sampleUtils constantDecrypt).Cookies, (sampleUtils constantDecrypt).History].Nodup := by
    decide
  have h := ParseDB_frame (sampleUtils constantDecrypt) (bookmarkWorld folderNode) "Preferences"
    filledState hd
  exact ⟨hd, h.1 (by decide), h.2.2.1, h.2.2.2.2.2.2.1⟩

/-! ## Stores that deliver no result set -/

/-- C9, the code at the failing input: when `Query` fails, and when `sql.Open`
fails, each of the three store parsers ends in a nil dereference instead of
returning, and so does `ParseDB`: no state is returned, the records
accumulated before included.  This is so for every state and every such
store. -/
theorem parsers_panic_without_result_set :
    parseLogin (sampleUtils constantDecrypt) (bookmarkWorld specDocument) filledState
      = .error Fault.nilDereference
    ∧ parseCookie (sampleUtils constantDecrypt) (bookmarkWorld specDocument) filledState
      = .error Fault.nilDereference
    ∧ parseHistory (sampleUtils constantDecrypt) (bookmarkWorld specDocument) filledState
      = .error Fault.nilDereference
    ∧ parseLogin (sampleUtils constantDecrypt) unopenedWorld filledState
      = .error Fault.nilDereference
    ∧ parseCookie (sampleUtils constantDecrypt) unopenedWorld filledState
      = .error Fault.nilDereference
    ∧ parseHistory (sampleUtils constantDecrypt) unopenedWorld filledState
      = .error Fault.nilDereference
    ∧ ParseDB (sampleUtils constantDecrypt) (bookmarkWorld specDocument) "Login Data" filledState
      = .error Fault.nilDereference
    ∧ (∀ (u : Utils) (w : World) (s : State) (e : Err) (ldb : DB LoginRow) (cdb : DB CookieRow)
        (hdb : DB HistoryRow),
        parseLogin u { w with loginDB := .ok { ldb with query := .error e } } s
          = .error Fault.nilDereference
        ∧ parseCookie u { w with cookieDB := .ok { cdb with query := .error e } } s
          = .error Fault.nilDereference
        ∧ parseHistory u { w with historyDB := .ok { hdb with query := .error e } } s
          = .error Fault.nilDereference
        ∧ parseLogin u { w with loginDB := .error e } s = .error Fault.nilDereference
        ∧ parseCookie u { w with cookieDB := .error e } s = .error Fault.nilDereference
        ∧ parseHistory u { w with historyDB := .error e } s = .error Fault.nilDereference) :=
  ⟨rfl, rfl, rfl, rfl, rfl, rfl,
    by simp [ParseDB, sampleUtils, parseLogin, bookmarkWorld, brokenDB],
    fun _ _ _ _ _ _ _ => ⟨rfl, rfl, rfl, rfl, rfl, rfl⟩⟩

end HackBrowserData
